import Mathlib

/-!
Verification of the library-synchronization core of the google-photos-cli
repository: the generic protobuf wire codec, the three-variant sync request
builder, the sync driver, and the reconciliation engine
(`internal/core/` library code, `GetLibraryState` / `GetLibraryPageInit` /
`GetLibraryPage`, `parseFromProto`, `parseProtobufMessage` and the
`append*` wire helpers).

Bytes are modelled as `Nat` values below 256 and byte strings as `List Nat`.
Go strings that flow into the wire format (tokens) are byte lists; Go strings
that are only compared or stored (media keys, dedup keys, album ids, file
names) are Lean `String`s.
-/

namespace GPhotos

/-! ## Wire codec primitives (google.golang.org/protobuf/encoding/protowire)

The repository calls into `protowire` for the low-level wire format:
`AppendVarint`, `AppendTag`, `AppendBytes`, `AppendString`, `ConsumeTag`,
`ConsumeVarint`, `ConsumeBytes`, `ConsumeFixed32`, `ConsumeFixed64`.
These are modelled here from that library's semantics. -/

/-- Fuel-indexed body of the varint encoder; the fuel only bounds the
recursion depth (structural recursion keeps the definition computable by
the kernel) and `v + 1` units always suffice. -/
def varintEncAux : Nat → Nat → List Nat
  | 0, _ => []
  | fuel + 1, v =>
    if v < 128 then [v] else (v % 128 + 128) :: varintEncAux fuel (v / 128)

/-- protowire.AppendVarint: little-endian base-128 encoding, 7 value bits per
byte, high bit set on every byte except the last. -/
def varintEnc (v : Nat) : List Nat :=
  varintEncAux (v + 1) v

/-- protowire.ConsumeVarint, unrolled loop: byte index `i` (0-based), value
accumulated additively as in the Go source (`v += y << 7*i` with the
continuation bit subtracted off).  The 10th byte (index 9) must be 0 or 1;
needing more than 10 bytes is an overflow error; running out of bytes is a
truncation error.  `2 ^ (7 * i)` stands for the Go shift `<< (7*i)`. -/
def consumeVarintAux : List Nat → Nat → Nat → Option (Nat × Nat)
  | [], _, _ => none
  | b :: bs, i, acc =>
    if i = 9 then
      if b < 2 then some (acc + b * 2 ^ 63, 10) else none
    else if b < 128 then
      some (acc + b * 2 ^ (7 * i), i + 1)
    else
      consumeVarintAux bs (i + 1) (acc + (b - 128) * 2 ^ (7 * i))

/-- protowire.ConsumeVarint: returns the decoded value and the number of bytes
consumed, or `none` on truncated or overflowing input. -/
def consumeVarint (bs : List Nat) : Option (Nat × Nat) :=
  consumeVarintAux bs 0 0

/-- protowire.ConsumeTag: a varint whose low three bits are the wire type and
whose remaining bits are the field number, cast to a signed 32-bit `Number`
which must be at least 1 (`v % 2 ^ 32` below is the uint64 → int32 cast;
values with bit 31 set are negative and rejected, as is 0). -/
def consumeTag (bs : List Nat) : Option (Nat × Nat × Nat) :=
  match consumeVarint bs with
  | none => none
  | some (v, n) =>
    let w := (v / 8) % 2 ^ 32
    if w = 0 ∨ 2 ^ 31 ≤ w then none else some (w, v % 8, n)

/-- protowire.ConsumeBytes: a varint length prefix followed by that many
payload bytes; errors when the length prefix is bad or the payload is
truncated. -/
def consumeBytes (bs : List Nat) : Option (List Nat × Nat) :=
  match consumeVarint bs with
  | none => none
  | some (m, n) =>
    if (bs.drop n).length < m then none
    else some ((bs.drop n).take m, n + m)

/-- protowire.ConsumeFixed32: four little-endian bytes. -/
def consumeFixed32 (bs : List Nat) : Option (Nat × Nat) :=
  match bs with
  | b0 :: b1 :: b2 :: b3 :: _ =>
      some (b0 + b1 * 2 ^ 8 + b2 * 2 ^ 16 + b3 * 2 ^ 24, 4)
  | _ => none

/-- protowire.ConsumeFixed64: eight little-endian bytes. -/
def consumeFixed64 (bs : List Nat) : Option (Nat × Nat) :=
  match bs with
  | b0 :: b1 :: b2 :: b3 :: b4 :: b5 :: b6 :: b7 :: _ =>
      some (b0 + b1 * 2 ^ 8 + b2 * 2 ^ 16 + b3 * 2 ^ 24 + b4 * 2 ^ 32
              + b5 * 2 ^ 40 + b6 * 2 ^ 48 + b7 * 2 ^ 56, 4 + 4)
  | _ => none

/-- protowire.EncodeTag: `uint64(num) << 3 | uint64(typ & 7)`; written
additively, which coincides with the bitwise-or because the low three bits of
`num << 3` are zero. -/
def encodeTag (fieldNum wireType : Nat) : Nat :=
  fieldNum * 8 + wireType % 8

/-! ### The repository's append helpers (internal/core library code) -/

/-- appendVarint from the source: `protowire.AppendVarint(b, v)`. -/
def appendVarint (b : List Nat) (v : Nat) : List Nat :=
  b ++ varintEnc v

/-- appendTag from the source: `protowire.AppendTag(b, fieldNum, wireType)`. -/
def appendTag (b : List Nat) (fieldNum wireType : Nat) : List Nat :=
  appendVarint b (encodeTag fieldNum wireType)

/-- appendBytes from the source: `protowire.AppendBytes(b, v)` — varint length
prefix followed by the raw bytes. -/
def appendBytes (b : List Nat) (v : List Nat) : List Nat :=
  appendVarint b v.length ++ v

/-- appendString from the source: `protowire.AppendString(b, s)`; the string's
bytes are appended exactly like appendBytes. -/
def appendString (b : List Nat) (s : List Nat) : List Nat :=
  appendBytes b s

/-- appendMessage from the source: length-delimited tag then the nested
message bytes. -/
def appendMessage (b : List Nat) (fieldNum : Nat) (msg : List Nat) : List Nat :=
  appendBytes (appendTag b fieldNum 2) msg

/-- appendEmptyMessage from the source. -/
def appendEmptyMessage (b : List Nat) (fieldNum : Nat) : List Nat :=
  appendMessage b fieldNum []

/-- appendIntField from the source: varint-kind tag then the varint value. -/
def appendIntField (b : List Nat) (fieldNum v : Nat) : List Nat :=
  appendVarint (appendTag b fieldNum 0) v

/-- appendStringField from the source: length-delimited tag then the string
bytes. -/
def appendStringField (b : List Nat) (fieldNum : Nat) (s : List Nat) : List Nat :=
  appendBytes (appendTag b fieldNum 2) s

/-! ## Request builder (internal/core library code, buildField1_* functions)

Straight transcription of the fixed sub-block builders.  Each Go statement
`b = append...(b, ...)` becomes a `let` rebinding. -/

/-- buildField1_1 from the source: the deeply nested field 1.1.1 structure. -/
def buildField1_1_1 : List Nat :=
  let b : List Nat := []
  let b := appendEmptyMessage b 1
  let b := appendEmptyMessage b 3
  let b := appendEmptyMessage b 4
  let f5 : List Nat := []
  let f5 := appendEmptyMessage f5 1
  let f5 := appendEmptyMessage f5 2
  let f5 := appendEmptyMessage f5 3
  let f5 := appendEmptyMessage f5 4
  let f5 := appendEmptyMessage f5 5
  let f5 := appendEmptyMessage f5 7
  let b := appendMessage b 5 f5
  let b := appendEmptyMessage b 6
  let f7 : List Nat := []
  let f7 := appendEmptyMessage f7 2
  let b := appendMessage b 7 f7
  let b := appendEmptyMessage b 15
  let b := appendEmptyMessage b 16
  let b := appendEmptyMessage b 17
  let b := appendEmptyMessage b 19
  let b := appendEmptyMessage b 20
  let f21 : List Nat := []
  let f21_5 : List Nat := []
  let f21_5 := appendEmptyMessage f21_5 3
  let f21 := appendMessage f21 5 f21_5
  let f21 := appendEmptyMessage f21 6
  let b := appendMessage b 21 f21
  let b := appendEmptyMessage b 25
  let f30 : List Nat := []
  let f30 := appendEmptyMessage f30 2
  let b := appendMessage b 30 f30
  let b := appendEmptyMessage b 31
  let b := appendEmptyMessage b 32
  let f33 : List Nat := []
  let f33 := appendEmptyMessage f33 1
  let b := appendMessage b 33 f33
  let b := appendEmptyMessage b 34
  let b := appendEmptyMessage b 36
  let b := appendEmptyMessage b 37
  let b := appendEmptyMessage b 38
  let b := appendEmptyMessage b 39
  let b := appendEmptyMessage b 40
  let b := appendEmptyMessage b 41
  b

/-- buildField1_1_5 from the source: the field 1.1.5 structure. -/
def buildField1_1_5 : List Nat :=
  let b : List Nat := []
  let f2 : List Nat := []
  let f2_2 : List Nat := []
  let f2_2_3 : List Nat := []
  let f2_2_3 := appendEmptyMessage f2_2_3 2
  let f2_2 := appendMessage f2_2 3 f2_2_3
  let f2_2_4 : List Nat := []
  let f2_2_4 := appendEmptyMessage f2_2_4 2
  let f2_2 := appendMessage f2_2 4 f2_2_4
  let f2 := appendMessage f2 2 f2_2
  let f2_4 : List Nat := []
  let f2_4_2 : List Nat := []
  let f2_4_2 := appendIntField f2_4_2 2 1
  let f2_4 := appendMessage f2_4 2 f2_4_2
  let f2 := appendMessage f2 4 f2_4
  let f2_5 : List Nat := []
  let f2_5 := appendEmptyMessage f2_5 2
  let f2 := appendMessage f2 5 f2_5
  let f2 := appendIntField f2 6 1
  let b := appendMessage b 2 f2
  let f3 : List Nat := []
  let f3_2 : List Nat := []
  let f3_2 := appendEmptyMessage f3_2 3
  let f3_2 := appendEmptyMessage f3_2 4
  let f3 := appendMessage f3 2 f3_2
  let f3_3 : List Nat := []
  let f3_3 := appendEmptyMessage f3_3 2
  let f3_3_3 : List Nat := []
  let f3_3_3 := appendIntField f3_3_3 2 1
  let f3_3 := appendMessage f3_3 3 f3_3_3
  let f3 := appendMessage f3 3 f3_3
  let f3 := appendEmptyMessage f3 4
  let f3_5 : List Nat := []
  let f3_5_2 : List Nat := []
  let f3_5_2 := appendIntField f3_5_2 2 1
  let f3_5 := appendMessage f3_5 2 f3_5_2
  let f3 := appendMessage f3 5 f3_5
  let f3 := appendEmptyMessage f3 7
  let b := appendMessage b 3 f3
  let f4 : List Nat := []
  let f4_2 : List Nat := []
  let f4_2 := appendEmptyMessage f4_2 2
  let f4 := appendMessage f4 2 f4_2
  let b := appendMessage b 4 f4
  let f5 : List Nat := []
  let f5_1 : List Nat := []
  let f5_1_2 : List Nat := []
  let f5_1_2 := appendEmptyMessage f5_1_2 3
  let f5_1_2 := appendEmptyMessage f5_1_2 4
  let f5_1 := appendMessage f5_1 2 f5_1_2
  let f5_1_3 : List Nat := []
  let f5_1_3 := appendEmptyMessage f5_1_3 2
  let f5_1_3_3 : List Nat := []
  let f5_1_3_3 := appendIntField f5_1_3_3 2 1
  let f5_1_3 := appendMessage f5_1_3 3 f5_1_3_3
  let f5_1 := appendMessage f5_1 3 f5_1_3
  let f5 := appendMessage f5 1 f5_1
  let f5 := appendIntField f5 3 1
  let b := appendMessage b 5 f5
  b

/-- buildField1_1 from the source: the field 1.1 structure. -/
def buildField1_1 : List Nat :=
  let b : List Nat := []
  let b := appendMessage b 1 buildField1_1_1
  let b := appendMessage b 5 buildField1_1_5
  let b := appendEmptyMessage b 8
  let f9 : List Nat := []
  let f9 := appendEmptyMessage f9 2
  let f9_3 : List Nat := []
  let f9_3 := appendEmptyMessage f9_3 1
  let f9_3 := appendEmptyMessage f9_3 2
  let f9 := appendMessage f9 3 f9_3
  let f9_4 : List Nat := []
  let f9_4_1 : List Nat := []
  let f9_4_1_3 : List Nat := []
  let f9_4_1_3_1 : List Nat := []
  let f9_4_1_3_1_1 : List Nat := []
  let f9_4_1_3_1_1_5 : List Nat := []
  let f9_4_1_3_1_1_5 := appendEmptyMessage f9_4_1_3_1_1_5 1
  let f9_4_1_3_1_1 := appendMessage f9_4_1_3_1_1 5 f9_4_1_3_1_1_5
  let f9_4_1_3_1_1 := appendEmptyMessage f9_4_1_3_1_1 6
  let f9_4_1_3_1 := appendMessage f9_4_1_3_1 1 f9_4_1_3_1_1
  let f9_4_1_3_1 := appendEmptyMessage f9_4_1_3_1 2
  let f9_4_1_3_1_3 : List Nat := []
  let f9_4_1_3_1_3_1 : List Nat := []
  let f9_4_1_3_1_3_1_5 : List Nat := []
  let f9_4_1_3_1_3_1_5 := appendEmptyMessage f9_4_1_3_1_3_1_5 1
  let f9_4_1_3_1_3_1 := appendMessage f9_4_1_3_1_3_1 5 f9_4_1_3_1_3_1_5
  let f9_4_1_3_1_3_1 := appendEmptyMessage f9_4_1_3_1_3_1 6
  let f9_4_1_3_1_3 := appendMessage f9_4_1_3_1_3 1 f9_4_1_3_1_3_1
  let f9_4_1_3_1_3 := appendEmptyMessage f9_4_1_3_1_3 2
  let f9_4_1_3_1 := appendMessage f9_4_1_3_1 3 f9_4_1_3_1_3
  let f9_4_1_3 := appendMessage f9_4_1_3 1 f9_4_1_3_1
  let f9_4_1 := appendMessage f9_4_1 3 f9_4_1_3
  let f9_4_1_4 : List Nat := []
  let f9_4_1_4_1 : List Nat := []
  let f9_4_1_4_1 := appendEmptyMessage f9_4_1_4_1 2
  let f9_4_1_4 := appendMessage f9_4_1_4 1 f9_4_1_4_1
  let f9_4_1 := appendMessage f9_4_1 4 f9_4_1_4
  let f9_4 := appendMessage f9_4 1 f9_4_1
  let f9 := appendMessage f9 4 f9_4
  let b := appendMessage b 9 f9
  let f11 : List Nat := []
  let f11 := appendEmptyMessage f11 2
  let f11 := appendEmptyMessage f11 3
  let f11_4 : List Nat := []
  let f11_4_2 : List Nat := []
  let f11_4_2 := appendIntField f11_4_2 1 1
  let f11_4_2 := appendIntField f11_4_2 2 2
  let f11_4 := appendMessage f11_4 2 f11_4_2
  let f11 := appendMessage f11 4 f11_4
  let b := appendMessage b 11 f11
  let b := appendEmptyMessage b 12
  let f14 : List Nat := []
  let f14 := appendEmptyMessage f14 2
  let f14 := appendEmptyMessage f14 3
  let f14_4 : List Nat := []
  let f14_4_2 : List Nat := []
  let f14_4_2 := appendIntField f14_4_2 1 1
  let f14_4_2 := appendIntField f14_4_2 2 2
  let f14_4 := appendMessage f14_4 2 f14_4_2
  let f14 := appendMessage f14 4 f14_4
  let b := appendMessage b 14 f14
  let f15 : List Nat := []
  let f15 := appendEmptyMessage f15 1
  let f15 := appendEmptyMessage f15 4
  let b := appendMessage b 15 f15
  let f17 : List Nat := []
  let f17 := appendEmptyMessage f17 1
  let f17 := appendEmptyMessage f17 4
  let b := appendMessage b 17 f17
  let f19 : List Nat := []
  let f19 := appendEmptyMessage f19 2
  let f19 := appendEmptyMessage f19 3
  let f19_4 : List Nat := []
  let f19_4_2 : List Nat := []
  let f19_4_2 := appendIntField f19_4_2 1 1
  let f19_4_2 := appendIntField f19_4_2 2 2
  let f19_4 := appendMessage f19_4 2 f19_4_2
  let f19 := appendMessage f19 4 f19_4
  let b := appendMessage b 19 f19
  let b := appendEmptyMessage b 22
  let b := appendEmptyMessage b 23
  b

/-- buildField1_2 from the source: the field 1.2 structure. -/
def buildField1_2 : List Nat :=
  let b : List Nat := []
  let f1 : List Nat := []
  let f1 := appendEmptyMessage f1 2
  let f1 := appendEmptyMessage f1 3
  let f1 := appendEmptyMessage f1 4
  let f1 := appendEmptyMessage f1 5
  let f1_6 : List Nat := []
  let f1_6 := appendEmptyMessage f1_6 1
  let f1_6 := appendEmptyMessage f1_6 2
  let f1_6 := appendEmptyMessage f1_6 3
  let f1_6 := appendEmptyMessage f1_6 4
  let f1_6 := appendEmptyMessage f1_6 5
  let f1_6 := appendEmptyMessage f1_6 7
  let f1 := appendMessage f1 6 f1_6
  let f1 := appendEmptyMessage f1 7
  let f1 := appendEmptyMessage f1 8
  let f1 := appendEmptyMessage f1 10
  let f1 := appendEmptyMessage f1 12
  let f1_13 : List Nat := []
  let f1_13 := appendEmptyMessage f1_13 2
  let f1_13 := appendEmptyMessage f1_13 3
  let f1 := appendMessage f1 13 f1_13
  let f1_15 : List Nat := []
  let f1_15 := appendEmptyMessage f1_15 1
  let f1 := appendMessage f1 15 f1_15
  let f1 := appendEmptyMessage f1 18
  let b := appendMessage b 1 f1
  let f4 : List Nat := []
  let f4 := appendEmptyMessage f4 1
  let b := appendMessage b 4 f4
  let b := appendEmptyMessage b 9
  let f11 : List Nat := []
  let f11_1 : List Nat := []
  let f11_1 := appendEmptyMessage f11_1 1
  let f11_1 := appendEmptyMessage f11_1 4
  let f11_1 := appendEmptyMessage f11_1 5
  let f11_1 := appendEmptyMessage f11_1 6
  let f11_1 := appendEmptyMessage f11_1 9
  let f11 := appendMessage f11 1 f11_1
  let b := appendMessage b 11 f11
  let f14 : List Nat := []
  let f14_1 : List Nat := []
  let f14_1_1 : List Nat := []
  let f14_1_1 := appendEmptyMessage f14_1_1 1
  let f14_1_1_2 : List Nat := []
  let f14_1_1_2_2 : List Nat := []
  let f14_1_1_2_2_1 : List Nat := []
  let f14_1_1_2_2_1 := appendEmptyMessage f14_1_1_2_2_1 1
  let f14_1_1_2_2 := appendMessage f14_1_1_2_2 1 f14_1_1_2_2_1
  let f14_1_1_2_2 := appendEmptyMessage f14_1_1_2_2 3
  let f14_1_1_2 := appendMessage f14_1_1_2 2 f14_1_1_2_2
  let f14_1_1 := appendMessage f14_1_1 2 f14_1_1_2
  let f14_1_1_3 : List Nat := []
  let f14_1_1_3_4 : List Nat := []
  let f14_1_1_3_4_1 : List Nat := []
  let f14_1_1_3_4_1 := appendEmptyMessage f14_1_1_3_4_1 1
  let f14_1_1_3_4 := appendMessage f14_1_1_3_4 1 f14_1_1_3_4_1
  let f14_1_1_3_4 := appendEmptyMessage f14_1_1_3_4 3
  let f14_1_1_3 := appendMessage f14_1_1_3 4 f14_1_1_3_4
  let f14_1_1_3_5 : List Nat := []
  let f14_1_1_3_5_1 : List Nat := []
  let f14_1_1_3_5_1 := appendEmptyMessage f14_1_1_3_5_1 1
  let f14_1_1_3_5 := appendMessage f14_1_1_3_5 1 f14_1_1_3_5_1
  let f14_1_1_3_5 := appendEmptyMessage f14_1_1_3_5 3
  let f14_1_1_3 := appendMessage f14_1_1_3 5 f14_1_1_3_5
  let f14_1_1 := appendMessage f14_1_1 3 f14_1_1_3
  let f14_1 := appendMessage f14_1 1 f14_1_1
  let f14_1 := appendEmptyMessage f14_1 2
  let f14 := appendMessage f14 1 f14_1
  let b := appendMessage b 14 f14
  let b := appendEmptyMessage b 17
  let f18 : List Nat := []
  let f18 := appendEmptyMessage f18 1
  let f18_2 : List Nat := []
  let f18_2 := appendEmptyMessage f18_2 1
  let f18 := appendMessage f18 2 f18_2
  let b := appendMessage b 18 f18
  let f20 : List Nat := []
  let f20_2 : List Nat := []
  let f20_2 := appendEmptyMessage f20_2 1
  let f20_2 := appendEmptyMessage f20_2 2
  let f20 := appendMessage f20 2 f20_2
  let b := appendMessage b 20 f20
  let b := appendEmptyMessage b 22
  let b := appendEmptyMessage b 23
  let b := appendEmptyMessage b 24
  b

/-- buildField1_3 from the source: the field 1.3 structure. -/
def buildField1_3 : List Nat :=
  let b : List Nat := []
  let b := appendEmptyMessage b 2
  let f3 : List Nat := []
  let f3 := appendEmptyMessage f3 2
  let f3 := appendEmptyMessage f3 3
  let f3 := appendEmptyMessage f3 7
  let f3 := appendEmptyMessage f3 8
  let f3_14 : List Nat := []
  let f3_14 := appendEmptyMessage f3_14 1
  let f3 := appendMessage f3 14 f3_14
  let f3 := appendEmptyMessage f3 16
  let f3_17 : List Nat := []
  let f3_17 := appendEmptyMessage f3_17 2
  let f3 := appendMessage f3 17 f3_17
  let f3 := appendEmptyMessage f3 18
  let f3 := appendEmptyMessage f3 19
  let f3 := appendEmptyMessage f3 20
  let f3 := appendEmptyMessage f3 21
  let f3 := appendEmptyMessage f3 22
  let f3 := appendEmptyMessage f3 23
  let f3_27 : List Nat := []
  let f3_27 := appendEmptyMessage f3_27 1
  let f3_27_2 : List Nat := []
  let f3_27_2 := appendEmptyMessage f3_27_2 1
  let f3_27 := appendMessage f3_27 2 f3_27_2
  let f3 := appendMessage f3 27 f3_27
  let f3 := appendEmptyMessage f3 29
  let f3 := appendEmptyMessage f3 30
  let f3 := appendEmptyMessage f3 31
  let f3 := appendEmptyMessage f3 32
  let f3 := appendEmptyMessage f3 34
  let f3 := appendEmptyMessage f3 37
  let f3 := appendEmptyMessage f3 38
  let f3 := appendEmptyMessage f3 39
  let f3 := appendEmptyMessage f3 41
  let f3_43 : List Nat := []
  let f3_43 := appendEmptyMessage f3_43 1
  let f3 := appendMessage f3 43 f3_43
  let f3_45 : List Nat := []
  let f3_45_1 : List Nat := []
  let f3_45_1 := appendEmptyMessage f3_45_1 1
  let f3_45 := appendMessage f3_45 1 f3_45_1
  let f3 := appendMessage f3 45 f3_45
  let f3_46 : List Nat := []
  let f3_46 := appendEmptyMessage f3_46 1
  let f3_46 := appendEmptyMessage f3_46 2
  let f3_46 := appendEmptyMessage f3_46 3
  let f3 := appendMessage f3 46 f3_46
  let f3 := appendEmptyMessage f3 47
  let b := appendMessage b 3 f3
  let f4 : List Nat := []
  let f4 := appendEmptyMessage f4 2
  let f4_3 : List Nat := []
  let f4_3 := appendEmptyMessage f4_3 1
  let f4 := appendMessage f4 3 f4_3
  let f4 := appendEmptyMessage f4 4
  let f4_5 : List Nat := []
  let f4_5 := appendEmptyMessage f4_5 1
  let f4 := appendMessage f4 5 f4_5
  let b := appendMessage b 4 f4
  let b := appendEmptyMessage b 7
  let b := appendEmptyMessage b 12
  let b := appendEmptyMessage b 13
  let f14 : List Nat := []
  let f14 := appendEmptyMessage f14 1
  let f14_2 : List Nat := []
  let f14_2 := appendEmptyMessage f14_2 1
  let f14_2_2 : List Nat := []
  let f14_2_2 := appendEmptyMessage f14_2_2 1
  let f14_2 := appendMessage f14_2 2 f14_2_2
  let f14_2 := appendEmptyMessage f14_2 3
  let f14_2_4 : List Nat := []
  let f14_2_4 := appendEmptyMessage f14_2_4 1
  let f14_2 := appendMessage f14_2 4 f14_2_4
  let f14 := appendMessage f14 2 f14_2
  let f14_3 : List Nat := []
  let f14_3 := appendEmptyMessage f14_3 1
  let f14_3_2 : List Nat := []
  let f14_3_2 := appendEmptyMessage f14_3_2 1
  let f14_3 := appendMessage f14_3 2 f14_3_2
  let f14_3 := appendEmptyMessage f14_3 3
  let f14_3 := appendEmptyMessage f14_3 4
  let f14 := appendMessage f14 3 f14_3
  let b := appendMessage b 14 f14
  let b := appendEmptyMessage b 15
  let f16 : List Nat := []
  let f16 := appendEmptyMessage f16 1
  let b := appendMessage b 16 f16
  let b := appendEmptyMessage b 18
  let f19 : List Nat := []
  let f19_4 : List Nat := []
  let f19_4 := appendEmptyMessage f19_4 2
  let f19 := appendMessage f19 4 f19_4
  let f19_6 : List Nat := []
  let f19_6 := appendEmptyMessage f19_6 2
  let f19_6 := appendEmptyMessage f19_6 3
  let f19 := appendMessage f19 6 f19_6
  let f19_7 : List Nat := []
  let f19_7 := appendEmptyMessage f19_7 2
  let f19_7 := appendEmptyMessage f19_7 3
  let f19 := appendMessage f19 7 f19_7
  let f19 := appendEmptyMessage f19 8
  let f19 := appendEmptyMessage f19 9
  let b := appendMessage b 19 f19
  let b := appendEmptyMessage b 20
  let b := appendEmptyMessage b 22
  let b := appendEmptyMessage b 24
  let b := appendEmptyMessage b 25
  let b := appendEmptyMessage b 26
  b

/-- buildField1_9 from the source: the field 1.9 structure.  The string
constant of field 8.2 is the byte sequence 01 02 03 05 06 07. -/
def buildField1_9 : List Nat :=
  let b : List Nat := []
  let f1 : List Nat := []
  let f1_2 : List Nat := []
  let f1_2 := appendEmptyMessage f1_2 1
  let f1_2 := appendEmptyMessage f1_2 2
  let f1 := appendMessage f1 2 f1_2
  let b := appendMessage b 1 f1
  let f2 : List Nat := []
  let f2_3 : List Nat := []
  let f2_3 := appendIntField f2_3 2 1
  let f2 := appendMessage f2 3 f2_3
  let b := appendMessage b 2 f2
  let f3 : List Nat := []
  let f3 := appendEmptyMessage f3 2
  let b := appendMessage b 3 f3
  let b := appendEmptyMessage b 4
  let f7 : List Nat := []
  let f7 := appendEmptyMessage f7 1
  let b := appendMessage b 7 f7
  let f8 : List Nat := []
  let f8 := appendIntField f8 1 2
  let f8 := appendStringField f8 2 [1, 2, 3, 5, 6, 7]
  let b := appendMessage b 8 f8
  let b := appendEmptyMessage b 9
  let f11 : List Nat := []
  let f11 := appendEmptyMessage f11 1
  let b := appendMessage b 11 f11
  b

/-- buildField1_12 from the source: the field 1.12 structure. -/
def buildField1_12 : List Nat :=
  let b : List Nat := []
  let f2 : List Nat := []
  let f2 := appendEmptyMessage f2 1
  let f2 := appendEmptyMessage f2 2
  let b := appendMessage b 2 f2
  let f3 : List Nat := []
  let f3 := appendEmptyMessage f3 1
  let b := appendMessage b 3 f3
  let b := appendEmptyMessage b 4
  b

/-- buildField1_15 from the source: the field 1.15 structure. -/
def buildField1_15 : List Nat :=
  let b : List Nat := []
  let f3 : List Nat := []
  let f3 := appendIntField f3 1 1
  let b := appendMessage b 3 f3
  b

/-- buildField1_19 from the source: the field 1.19 structure. -/
def buildField1_19 : List Nat :=
  let b : List Nat := []
  let f1 : List Nat := []
  let f1 := appendEmptyMessage f1 1
  let f1 := appendEmptyMessage f1 2
  let b := appendMessage b 1 f1
  let f2 : List Nat := []
  let f2 := appendIntField f2 1 1
  let f2 := appendIntField f2 1 2
  let f2 := appendIntField f2 1 4
  let f2 := appendIntField f2 1 6
  let f2 := appendIntField f2 1 5
  let f2 := appendIntField f2 1 7
  let b := appendMessage b 2 f2
  let f3 : List Nat := []
  let f3 := appendEmptyMessage f3 1
  let f3 := appendEmptyMessage f3 2
  let b := appendMessage b 3 f3
  let f5 : List Nat := []
  let f5 := appendEmptyMessage f5 1
  let f5 := appendEmptyMessage f5 2
  let b := appendMessage b 5 f5
  let f6 : List Nat := []
  let f6 := appendEmptyMessage f6 1
  let b := appendMessage b 6 f6
  let f7 : List Nat := []
  let f7 := appendEmptyMessage f7 1
  let f7 := appendEmptyMessage f7 2
  let b := appendMessage b 7 f7
  let f8 : List Nat := []
  let f8 := appendEmptyMessage f8 1
  let b := appendMessage b 8 f8
  b

/-- buildField1_21 from the source: the field 1.21 structure.  The string
constant of field 7.2 is the byte sequence
01 07 08 09 0a 0d 0e 0f 11 13 14 16 17 2d 2e 2f 30 31 3a 06 18 32 36 37 3b
3e 3f 40 41 38 39 3c 47 42 45 44 and the one of field 7.3 is the single
byte 01. -/
def buildField1_21 : List Nat :=
  let b : List Nat := []
  let f2 : List Nat := []
  let f2_2 : List Nat := []
  let f2_2 := appendEmptyMessage f2_2 4
  let f2 := appendMessage f2 2 f2_2
  let f2 := appendEmptyMessage f2 4
  let f2 := appendEmptyMessage f2 5
  let b := appendMessage b 2 f2
  let f3 : List Nat := []
  let f3_2 : List Nat := []
  let f3_2 := appendIntField f3_2 1 1
  let f3 := appendMessage f3 2 f3_2
  let f3_4 : List Nat := []
  let f3_4 := appendEmptyMessage f3_4 2
  let f3 := appendMessage f3 4 f3_4
  let b := appendMessage b 3 f3
  let f5 : List Nat := []
  let f5 := appendEmptyMessage f5 1
  let b := appendMessage b 5 f5
  let f6 : List Nat := []
  let f6 := appendEmptyMessage f6 1
  let f6_2 : List Nat := []
  let f6_2 := appendEmptyMessage f6_2 1
  let f6 := appendMessage f6 2 f6_2
  let b := appendMessage b 6 f6
  let f7 : List Nat := []
  let f7 := appendIntField f7 1 2
  let f7 := appendStringField f7 2
    [1, 7, 8, 9, 10, 13, 14, 15, 17, 19, 20, 22, 23, 45, 46, 47, 48, 49,
     58, 6, 24, 50, 54, 55, 59, 62, 63, 64, 65, 56, 57, 60, 71, 66, 69, 68]
  let f7 := appendStringField f7 3 [1]
  let b := appendMessage b 7 f7
  let f8 : List Nat := []
  let f8_3 : List Nat := []
  let f8_3_1 : List Nat := []
  let f8_3_1_1 : List Nat := []
  let f8_3_1_1_2 : List Nat := []
  let f8_3_1_1_2 := appendIntField f8_3_1_1_2 1 1
  let f8_3_1_1 := appendMessage f8_3_1_1 2 f8_3_1_1_2
  let f8_3_1_1_4 : List Nat := []
  let f8_3_1_1_4 := appendEmptyMessage f8_3_1_1_4 2
  let f8_3_1_1 := appendMessage f8_3_1_1 4 f8_3_1_1_4
  let f8_3_1 := appendMessage f8_3_1 1 f8_3_1_1
  let f8_3 := appendMessage f8_3 1 f8_3_1
  let f8_3 := appendEmptyMessage f8_3 3
  let f8 := appendMessage f8 3 f8_3
  let f8_4 : List Nat := []
  let f8_4 := appendEmptyMessage f8_4 1
  let f8 := appendMessage f8 4 f8_4
  let f8_5 : List Nat := []
  let f8_5_1 : List Nat := []
  let f8_5_1_2 : List Nat := []
  let f8_5_1_2 := appendIntField f8_5_1_2 1 1
  let f8_5_1 := appendMessage f8_5_1 2 f8_5_1_2
  let f8_5_1_4 : List Nat := []
  let f8_5_1_4 := appendEmptyMessage f8_5_1_4 2
  let f8_5_1 := appendMessage f8_5_1 4 f8_5_1_4
  let f8_5 := appendMessage f8_5 1 f8_5_1
  let f8 := appendMessage f8 5 f8_5
  let b := appendMessage b 8 f8
  let f9 : List Nat := []
  let f9 := appendEmptyMessage f9 1
  let b := appendMessage b 9 f9
  let f10 : List Nat := []
  let f10_1 : List Nat := []
  let f10_1 := appendEmptyMessage f10_1 1
  let f10 := appendMessage f10 1 f10_1
  let f10 := appendEmptyMessage f10 3
  let f10 := appendEmptyMessage f10 5
  let f10_6 : List Nat := []
  let f10_6 := appendEmptyMessage f10_6 1
  let f10 := appendMessage f10 6 f10_6
  let f10 := appendEmptyMessage f10 7
  let f10 := appendEmptyMessage f10 9
  let f10 := appendEmptyMessage f10 10
  let b := appendMessage b 10 f10
  let b := appendEmptyMessage b 11
  let b := appendEmptyMessage b 12
  let b := appendEmptyMessage b 13
  let b := appendEmptyMessage b 14
  let f16 : List Nat := []
  let f16 := appendEmptyMessage f16 1
  let b := appendMessage b 16 f16
  b

/-- buildField1_22 from the source: the field 1.22 structure.  The string
constant of field 2 is the ASCII decimal literal 107818234414673686888. -/
def buildField1_22 : List Nat :=
  let b : List Nat := []
  let b := appendIntField b 1 1
  let b := appendStringField b 2
    [49, 48, 55, 56, 49, 56, 50, 51, 52, 52, 49, 52, 54, 55, 51, 54, 56,
     54, 56, 56, 56]
  b

/-- buildField1_25 from the source: the field 1.25 structure. -/
def buildField1_25 : List Nat :=
  let b : List Nat := []
  let f1 : List Nat := []
  let f1_1 : List Nat := []
  let f1_1_1 : List Nat := []
  let f1_1_1 := appendEmptyMessage f1_1_1 1
  let f1_1 := appendMessage f1_1 1 f1_1_1
  let f1 := appendMessage f1 1 f1_1
  let b := appendMessage b 1 f1
  let b := appendEmptyMessage b 2
  b

/-- buildField2 from the source: the field 2 structure. -/
def buildField2 : List Nat :=
  let b : List Nat := []
  let f1 : List Nat := []
  let f1_1 : List Nat := []
  let f1_1_1 : List Nat := []
  let f1_1_1 := appendEmptyMessage f1_1_1 1
  let f1_1 := appendMessage f1_1 1 f1_1_1
  let f1_1 := appendEmptyMessage f1_1 2
  let f1 := appendMessage f1 1 f1_1
  let b := appendMessage b 1 f1
  let b := appendEmptyMessage b 2
  b

/-- buildLibraryStateRequest from the source: the complete request for
get_library_state.  Tokens are the Go strings' bytes; the Go emptiness tests
`pageToken != ""` and `stateToken != ""` become `≠ []`. -/
def buildLibraryStateRequest (stateToken pageToken : List Nat) : List Nat :=
  let field1 : List Nat := []
  let field1 := appendMessage field1 1 buildField1_1
  let field1 := appendMessage field1 2 buildField1_2
  let field1 := appendMessage field1 3 buildField1_3
  let field1 := if pageToken ≠ [] then appendStringField field1 4 pageToken else field1
  let field1 := if stateToken ≠ [] then appendStringField field1 6 stateToken else field1
  let field1 := appendIntField field1 7 2
  let field1 := appendMessage field1 9 buildField1_9
  let field1 := appendIntField field1 11 1
  let field1 := appendIntField field1 11 2
  let field1 := appendIntField field1 11 6
  let field1 := appendMessage field1 12 buildField1_12
  let field1 := appendEmptyMessage field1 13
  let field1 := appendMessage field1 15 buildField1_15
  let field1 := appendMessage field1 19 buildField1_19
  let field1 := appendMessage field1 21 buildField1_21
  let field1 := appendMessage field1 22 buildField1_22
  let field1 := appendMessage field1 25 buildField1_25
  let field1 := appendEmptyMessage field1 26
  let result : List Nat := []
  let result := appendMessage result 1 field1
  let result := appendMessage result 2 buildField2
  result

/-- buildLibraryPageInitRequest from the source. -/
def buildLibraryPageInitRequest (pageToken : List Nat) : List Nat :=
  buildLibraryStateRequest [] pageToken

/-- buildLibraryPageRequest from the source. -/
def buildLibraryPageRequest (pageToken stateToken : List Nat) : List Nat :=
  buildLibraryStateRequest stateToken pageToken

/-! ## Generic decoder (parseProtobufMessage from the source)

The Go function returns a `map[string]any` keyed by the decimal rendering of
the field number; a value is a scalar (`uint64`/`uint32`), a string (either a
printable payload or the `bytes[N]` length marker — both are Go strings), or
a nested map; repeated occurrences of one field number are collected into an
ordered `[]any`.  The model uses an association list in first-insertion key
order (the Go map is unordered; the content is the same), with every value
held as an ordered list. -/

/-- Decoded value: `pnum` for varint/fixed64/fixed32 scalars, `pstr` for the
string renderings (printable payload or length marker), `pmsg` for a nested
message. -/
inductive PVal : Type where
  | pnum (v : Nat)
  | pstr (s : List Nat)
  | pmsg (m : List (Nat × List PVal))

/-- Go map update `result[fieldKey]`: append to the ordered value list of an
existing key, or add a new key (modelled at the end, preserving
first-insertion order). -/
def upsertList {α β : Type} [DecidableEq α] (m : List (α × List β)) (k : α)
    (v : β) : List (α × List β) :=
  match m with
  | [] => [(k, [v])]
  | (g, vs) :: rest =>
    if g = k then (g, vs ++ [v]) :: rest else (g, vs) :: upsertList rest k v

/-- isPrintable from the source: every byte is printable ASCII or one of
newline, carriage return, tab; an empty payload counts as printable. -/
def printableByte (c : Nat) : Bool :=
  (32 ≤ c && c ≤ 126) || c == 10 || c == 13 || c == 9

/-- isPrintable from the source, lifted over the byte list. -/
def isPrintable (bs : List Nat) : Bool :=
  bs.all printableByte

/-- Fuel-indexed body of the decimal renderer; `n + 1` units of fuel always
suffice. -/
def decRepAux : Nat → Nat → List Nat
  | 0, _ => []
  | fuel + 1, n =>
    if n < 10 then [48 + n] else decRepAux fuel (n / 10) ++ [48 + n % 10]

/-- Decimal ASCII rendering of a natural number (for the `bytes[N]` marker
produced by `fmt.Sprintf`). -/
def decRep (n : Nat) : List Nat :=
  decRepAux (n + 1) n

/-- The `bytes[N]` marker string produced for unprintable undecodable
payloads, as ASCII bytes. -/
def bytesMarker (n : Nat) : List Nat :=
  [98, 121, 116, 101, 115, 91] ++ decRep n ++ [93]

/-- Fuel-indexed body of the decode loop of parseProtobufMessage: the fuel
only bounds the recursion depth (every recursive call is on a strictly
shorter buffer, so `data.length + 1` units always suffice) and keeps the
definition computable by the kernel.  `acc` is the map built so far (the Go
`result`).  For a length-delimited field, a speculative recursive decode of
the payload keeps the structured form when it succeeds with at least one
field, otherwise falls back to the printable-string or length-marker
rendering.  Error messages abbreviate the Go formatted messages. -/
def parseLoopF : Nat → List Nat → List (Nat × List PVal) →
    Except String (List (Nat × List PVal))
  | 0, _, _ => .error "out of fuel"
  | fuel + 1, data, acc =>
    if data = [] then .ok acc
    else
      match consumeTag data with
      | none => .error "invalid tag"
      | some (f, k, n) =>
        if k = 0 then
          match consumeVarint (data.drop n) with
          | none => .error "invalid varint"
          | some (v, m) =>
            parseLoopF fuel ((data.drop n).drop m) (upsertList acc f (.pnum v))
        else if k = 1 then
          match consumeFixed64 (data.drop n) with
          | none => .error "invalid fixed64"
          | some (v, m) =>
            parseLoopF fuel ((data.drop n).drop m) (upsertList acc f (.pnum v))
        else if k = 2 then
          match consumeBytes (data.drop n) with
          | none => .error "invalid bytes"
          | some (payload, m) =>
            let value : PVal :=
              match parseLoopF fuel payload [] with
              | .ok nested =>
                if nested.length > 0 then .pmsg nested
                else if isPrintable payload then .pstr payload
                else .pstr (bytesMarker payload.length)
              | .error _ =>
                if isPrintable payload then .pstr payload
                else .pstr (bytesMarker payload.length)
            parseLoopF fuel ((data.drop n).drop m) (upsertList acc f value)
        else if k = 3 then .error "groups not supported"
        else if k = 5 then
          match consumeFixed32 (data.drop n) with
          | none => .error "invalid fixed32"
          | some (v, m) =>
            parseLoopF fuel ((data.drop n).drop m) (upsertList acc f (.pnum v))
        else .error "unknown wire type"

/-- The decode loop of parseProtobufMessage, with its always-sufficient
fuel. -/
def parseLoop (data : List Nat) (acc : List (Nat × List PVal)) :
    Except String (List (Nat × List PVal)) :=
  parseLoopF (data.length + 1) data acc

/-- parseProtobufMessage from the source: parse a whole byte buffer into a
record map, starting from an empty result. -/
def parseProtobufMessage (data : List Nat) :
    Except String (List (Nat × List PVal)) :=
  parseLoop data []

/-- The speculative rendering of a length-delimited payload, as performed
inline by parseProtobufMessage: nested structure when the payload decodes as
a message with at least one field, else the printable string, else the
length marker. -/
def renderBytesPayload (payload : List Nat) : PVal :=
  match parseProtobufMessage payload with
  | .ok nested =>
    if nested.length > 0 then .pmsg nested
    else if isPrintable payload then .pstr payload
    else .pstr (bytesMarker payload.length)
  | .error _ =>
    if isPrintable payload then .pstr payload
    else .pstr (bytesMarker payload.length)

/-! ## Response data model and reconciliation engine

The generated protobuf bindings (`internal/pb`, `LibraryState.pb.go`) are
not part of the source tree; the `Pb*` shapes below are the structures the
library parsing code dereferences, with field semantics as documented in
docs/library-implementation.md.  Go message pointers become `Option`;
proto3 scalar zero values are the field defaults. -/

/-- Go cast `int64(v)` / `int(v)` of a `uint64`: wraps at `2 ^ 63`. -/
def toInt64 (v : Nat) : Int :=
  if v < 2 ^ 63 then (v : Int) else (v : Int) - 2 ^ 64

/-- MediaItemCopy from the source. -/
structure MediaItemCopy where
  mediaKey : String
  albumID : String
deriving Repr, DecidableEq

/-- MediaItem from the source; Go zero values are the defaults. -/
structure MediaItem where
  mediaKey : String := ""
  fileName : String := ""
  dedupKey : String := ""
  type : Int := 0
  sizeBytes : Nat := 0
  utcTimestamp : Nat := 0
  serverCreationTime : Nat := 0
  timezoneOffset : Int := 0
  contentVersion : Nat := 0
  width : Int := 0
  height : Int := 0
  thumbnailURL : String := ""
  downloadURL : String := ""
  duration : Nat := 0
  isArchived : Bool := false
  isFavorite : Bool := false
  isLocked : Bool := false
  isOriginalQuality : Bool := false
  quotaChargedBytes : Nat := 0
  albumID : String := ""
  caption : String := ""
  copies : List MediaItemCopy := []
deriving Repr, DecidableEq

/-- AlbumMediaItem from the source. -/
structure AlbumMediaItem where
  mediaKey : String
  originalMediaKey : String
  fileName : String
  dedupKey : String
deriving Repr, DecidableEq

/-- AlbumItem from the source (item_count is a Go `int`, only ever 0 or a
list length here, so modelled as `Nat`). -/
structure AlbumItem where
  albumKey : String := ""
  title : String := ""
  itemCount : Nat := 0
  type : Int := 0
  coverMediaKey : String := ""
  coverURL : String := ""
  lastActivityMs : Nat := 0
  mediaItems : List AlbumMediaItem := []
deriving Repr, DecidableEq

/-- LibraryStateResponse from the source. -/
structure LibraryStateResponse where
  rawBytes : List Nat := []
  stateToken : String := ""
  nextPageToken : String := ""
  mediaItems : List MediaItem := []
  albums : List AlbumItem := []
  deletedMediaKeys : List String := []
deriving Repr, DecidableEq

/-- Modelled from the spec: `pb.CollectionInfo` of the absent generated
bindings — the owning collection reference, field 1.1 of the media metadata
(docs/library-implementation.md). -/
structure PbCollection where
  collectionId : String := ""
deriving Repr, DecidableEq

/-- Modelled from the spec: `pb.DedupInfo` of the absent generated bindings —
carrier of `dedup_key`, field 21.1 of the media metadata. -/
structure PbDedup where
  dedupKey : String := ""
deriving Repr, DecidableEq

/-- Modelled from the spec: the status-carrying sub-messages of the absent
generated bindings (archive 29.1, favorite 31.1, lock 39.1), each a single
numeric status field. -/
structure PbStatusHolder where
  status : Nat := 0
deriving Repr, DecidableEq

/-- Modelled from the spec: `pb.QuotaInfo` of the absent generated bindings,
fields 35.2 and 35.3 of the media metadata. -/
structure PbQuota where
  quotaChargedBytes : Nat := 0
  qualityType : Nat := 0
deriving Repr, DecidableEq

/-- Modelled from the spec: `pb.PropertyInfo` of the absent generated
bindings; property id 27 is the non-canonical marker. -/
structure PbProperty where
  propertyId : Nat := 0
deriving Repr, DecidableEq

/-- Modelled from the spec: `pb.MediaMetadata` of the absent generated
bindings, restricted to the fields the library parser reads. -/
structure PbMediaMetadata where
  fileName : String := ""
  utcTimestamp : Nat := 0
  timezoneOffset : Nat := 0
  serverCreationTimestamp : Nat := 0
  sizeBytes : Nat := 0
  contentVersion : Nat := 0
  collection : Option PbCollection := none
  dedup : Option PbDedup := none
  archive : Option PbStatusHolder := none
  favorite : Option PbStatusHolder := none
  quota : Option PbQuota := none
  lock : Option PbStatusHolder := none
  properties : List PbProperty := []
deriving Repr, DecidableEq

/-- Modelled from the spec: photo dimensions of the absent generated
bindings. -/
structure PbDimensions where
  width : Nat := 0
  height : Nat := 0
deriving Repr, DecidableEq

/-- Modelled from the spec: photo details of the absent generated bindings. -/
structure PbPhotoDetails where
  thumbnailUrl : String := ""
  dimensions : Option PbDimensions := none
deriving Repr, DecidableEq

/-- Modelled from the spec: photo info of the absent generated bindings. -/
structure PbPhoto where
  details : Option PbPhotoDetails := none
deriving Repr, DecidableEq

/-- Modelled from the spec: video thumbnail of the absent generated
bindings. -/
structure PbVideoThumbnail where
  url : String := ""
deriving Repr, DecidableEq

/-- Modelled from the spec: video details of the absent generated bindings. -/
structure PbVideoDetails where
  durationMs : Nat := 0
  width : Nat := 0
  height : Nat := 0
deriving Repr, DecidableEq

/-- Modelled from the spec: video info of the absent generated bindings. -/
structure PbVideo where
  thumbnail : Option PbVideoThumbnail := none
  downloadUrl : String := ""
  details : Option PbVideoDetails := none
deriving Repr, DecidableEq

/-- Modelled from the spec: `pb.MediaTypeInfo` of the absent generated
bindings. -/
structure PbTypeInfo where
  mediaType : Nat := 0
  photo : Option PbPhoto := none
  video : Option PbVideo := none
deriving Repr, DecidableEq

/-- Modelled from the spec: `pb.MediaKeyInfo` (alternative key) of the
absent generated bindings. -/
structure PbKeyInfo where
  mediaKey : String := ""
deriving Repr, DecidableEq

/-- Modelled from the spec: `pb.MediaItemData` of the absent generated
bindings. -/
structure PbMediaItemData where
  mediaKey : String := ""
  metadata : Option PbMediaMetadata := none
  typeInfo : Option PbTypeInfo := none
  keyInfo : Option PbKeyInfo := none
deriving Repr, DecidableEq

/-- Modelled from the spec: album cover reference of the absent generated
bindings. -/
structure PbCoverItem where
  mediaKey : String := ""
deriving Repr, DecidableEq

/-- Modelled from the spec: `pb.AlbumMetadata` of the absent generated
bindings.  `itemCount` is wire field 2.7, which the service always reports
as zero and which the parser never reads. -/
structure PbAlbumMetadata where
  title : String := ""
  albumType : Nat := 0
  coverItem : Option PbCoverItem := none
  itemCount : Nat := 0
deriving Repr, DecidableEq

/-- Modelled from the spec: `pb.AlbumData` of the absent generated
bindings. -/
structure PbAlbumData where
  albumKey : String := ""
  metadata : Option PbAlbumMetadata := none
deriving Repr, DecidableEq

/-- Modelled from the spec: deleted-media reference of the absent generated
bindings. -/
structure PbDeletedMedia where
  mediaKey : String := ""
deriving Repr, DecidableEq

/-- Modelled from the spec: `pb.DeletionInfo` of the absent generated
bindings — deletion_type 1 is a single deleted media item. -/
structure PbDeletionInfo where
  deletionType : Nat := 0
  media : Option PbDeletedMedia := none
deriving Repr, DecidableEq

/-- Modelled from the spec: `pb.DeletionData` of the absent generated
bindings. -/
structure PbDeletionData where
  info : Option PbDeletionInfo := none
deriving Repr, DecidableEq

/-- Modelled from the spec: `pb.LibraryStateData` of the absent generated
bindings.  Elements of the repeated media/album fields are Go pointers and
may be nil, hence `Option`; the deletion loop dereferences its elements
unconditionally, and a decoded repeated field never contains nil, so those
are plain values. -/
structure PbLibraryStateData where
  nextPageToken : String := ""
  mediaItems : List (Option PbMediaItemData) := []
  albums : List (Option PbAlbumData) := []
  stateToken : String := ""
  deletions : List PbDeletionData := []
deriving Repr, DecidableEq

/-- parseMediaItemFromProtoEx from the source: converts a protobuf media
record to a `MediaItem`, returning the item, the canonical flag (true unless
property 27 is present) and the owning album id; `none` both for a nil
record and for an unparseable record with neither media key nor file name. -/
def parseMediaItemFromProtoEx (pbItem : Option PbMediaItemData) :
    Option (MediaItem × Bool × String) :=
  match pbItem with
  | none => none
  | some pbItem =>
    let item : MediaItem := { mediaKey := pbItem.mediaKey }
    let state : MediaItem × Bool × String :=
      match pbItem.metadata with
      | none => (item, true, "")
      | some m =>
        let item := { item with
          fileName := m.fileName,
          utcTimestamp := m.utcTimestamp,
          timezoneOffset := toInt64 m.timezoneOffset,
          serverCreationTime := m.serverCreationTimestamp,
          sizeBytes := m.sizeBytes,
          contentVersion := m.contentVersion }
        let albumID := match m.collection with
          | some c => c.collectionId
          | none => ""
        let item := match m.dedup with
          | some d => { item with dedupKey := d.dedupKey }
          | none => item
        let item := match m.archive with
          | some a => { item with isArchived := a.status == 1 }
          | none => item
        let item := match m.favorite with
          | some f => { item with isFavorite := f.status == 1 }
          | none => item
        let item := match m.quota with
          | some q => { item with
              quotaChargedBytes := q.quotaChargedBytes,
              isOriginalQuality := q.qualityType == 2 }
          | none => item
        let item := match m.lock with
          | some l => { item with isLocked := l.status == 1 }
          | none => item
        let isCanonical := ! m.properties.any (fun p => p.propertyId == 27)
        (item, isCanonical, albumID)
    let item := state.1
    let isCanonical := state.2.1
    let albumID := state.2.2
    let item :=
      match pbItem.typeInfo with
      | none => item
      | some t =>
        let item := { item with type := toInt64 t.mediaType }
        let item :=
          match t.photo with
          | some ph =>
            match ph.details with
            | some d =>
              let item := { item with thumbnailURL := d.thumbnailUrl }
              match d.dimensions with
              | some dims =>
                { item with width := toInt64 dims.width,
                            height := toInt64 dims.height }
              | none => item
            | none => item
          | none => item
        let item :=
          match t.video with
          | some v =>
            let item := match v.thumbnail with
              | some th => { item with thumbnailURL := th.url }
              | none => item
            let item := { item with downloadURL := v.downloadUrl }
            match v.details with
            | some d =>
              { item with duration := d.durationMs,
                          width := toInt64 d.width,
                          height := toInt64 d.height }
            | none => item
          | none => item
        item
    let item :=
      match pbItem.keyInfo with
      | some ki =>
        if item.mediaKey = "" then { item with mediaKey := ki.mediaKey }
        else item
      | none => item
    if item.mediaKey = "" ∧ item.fileName = "" then none
    else some (item, isCanonical, albumID)

/-- One entry of the `allItems` slice built by the first reconciliation
pass. -/
structure ParsedItem where
  item : MediaItem
  isCanonical : Bool
  albumID : String
deriving Repr, DecidableEq

/-- First reconciliation pass, list part: parse every media wire record,
keeping the parseable ones in input order. -/
def allItemsOf (mediaItems : List (Option PbMediaItemData)) : List ParsedItem :=
  mediaItems.filterMap fun x =>
    (parseMediaItemFromProtoEx x).map fun t => ⟨t.1, t.2.1, t.2.2⟩

/-- Go map assignment `m[k] = v`: overwrite the existing entry or add a new
one. -/
def setA {α β : Type} [DecidableEq α] (m : List (α × β)) (k : α) (v : β) :
    List (α × β) :=
  match m with
  | [] => [(k, v)]
  | (g, w) :: rest =>
    if g = k then (g, v) :: rest else (g, w) :: setA rest k v

/-- Go map lookup `m[k]` with its ok flag. -/
def getA {α β : Type} [DecidableEq α] (m : List (α × β)) (k : α) : Option β :=
  match m with
  | [] => none
  | (g, w) :: rest => if g = k then some w else getA rest k

/-- Go map lookup of a list-valued map: an absent key reads as the nil
slice. -/
def getListA {α β : Type} [DecidableEq α] (m : List (α × List β)) (k : α) :
    List β :=
  (getA m k).getD []

/-- First reconciliation pass, index part: `dedupToCanonicalIdx` — for every
canonical item with a non-empty dedup key, record its position in
`allItems` (Go's `dedupToCanonicalIdx[item.DedupKey] = idx`, an overwriting
assignment). -/
def dedupIdxOf (allItems : List ParsedItem) : List (String × Nat) :=
  allItems.enum.foldl
    (fun m ip =>
      if ip.2.isCanonical ∧ ip.2.item.dedupKey ≠ "" then
        setA m ip.2.item.dedupKey ip.1
      else m)
    []

/-- The `MediaItemCopy` built for a non-canonical record in the second
pass. -/
def copyOfParsed (p : ParsedItem) : MediaItemCopy :=
  { mediaKey := p.item.mediaKey, albumID := p.albumID }

/-- Second reconciliation pass, copies part: `dedupToCopies` — for every
non-canonical record with a non-empty dedup key, append its copy to that
key's list.  (The Go source builds this map and the per-album map in one
loop; the two updates touch independent maps, so they are modelled as two
folds over the same list.) -/
def copiesMapOf (allItems : List ParsedItem) :
    List (String × List MediaItemCopy) :=
  allItems.foldl
    (fun m p =>
      if ¬ p.isCanonical ∧ p.item.dedupKey ≠ "" then
        upsertList m p.item.dedupKey (copyOfParsed p)
      else m)
    []

/-- Resolution of a copy's canonical key in the second pass: look the dedup
key up in `dedupToCanonicalIdx` and read that position's media key
(`allItems[canonicalIdx].item.MediaKey`; positions stored by `dedupIdxOf`
are always in range, so the out-of-range default is unreachable), empty
when the page has no canonical record for the key. -/
def originalKeyOf (allItems : List ParsedItem) (dedupIdx : List (String × Nat))
    (k : String) : String :=
  match getA dedupIdx k with
  | some i =>
    match allItems[i]? with
    | some q => q.item.mediaKey
    | none => ""
  | none => ""

/-- The `AlbumMediaItem` built for a non-canonical record in the second
pass. -/
def albumEntryOf (allItems : List ParsedItem) (dedupIdx : List (String × Nat))
    (p : ParsedItem) : AlbumMediaItem :=
  { mediaKey := p.item.mediaKey,
    originalMediaKey := originalKeyOf allItems dedupIdx p.item.dedupKey,
    fileName := p.item.fileName,
    dedupKey := p.item.dedupKey }

/-- Second reconciliation pass, album part: `collectionItems` — for every
non-canonical record with a non-empty dedup key and a non-empty album id,
append its album entry to that album's list. -/
def collectionsOf (allItems : List ParsedItem) (dedupIdx : List (String × Nat)) :
    List (String × List AlbumMediaItem) :=
  allItems.foldl
    (fun m p =>
      if ¬ p.isCanonical ∧ p.item.dedupKey ≠ "" ∧ p.albumID ≠ "" then
        upsertList m p.albumID (albumEntryOf allItems dedupIdx p)
      else m)
    []

/-- Third reconciliation pass: emit every canonical record as a public
`MediaItem`, with its accumulated copies attached (a key absent from
`dedupToCopies` leaves the nil copies slice, which reads back as the empty
list) and its album id set. -/
def mediaItemsOut (allItems : List ParsedItem)
    (copiesMap : List (String × List MediaItemCopy)) : List MediaItem :=
  allItems.foldl
    (fun acc p =>
      if p.isCanonical then
        acc ++ [{ p.item with
                  copies := getListA copiesMap p.item.dedupKey,
                  albumID := p.albumID }]
      else acc)
    []

/-- parseAlbumItemFromProto from the source: converts a protobuf album
record, attaching the accumulated membership list and deriving item_count
from its length. -/
def parseAlbumItemFromProto (pbAlbum : Option PbAlbumData)
    (collectionItems : List (String × List AlbumMediaItem)) : Option AlbumItem :=
  match pbAlbum with
  | none => none
  | some alb =>
    if alb.albumKey = "" then none
    else
      let album : AlbumItem := { albumKey := alb.albumKey }
      let album :=
        match alb.metadata with
        | some m =>
          let album := { album with title := m.title, type := toInt64 m.albumType }
          match m.coverItem with
          | some c => { album with coverMediaKey := c.mediaKey }
          | none => album
        | none => album
      let album :=
        match getA collectionItems album.albumKey with
        | some items => { album with mediaItems := items, itemCount := items.length }
        | none => album
      some album

/-- Deletion extraction from parseFromProto: a record contributes its media
key when its info is present with deletion type 1 and a media payload. -/
def deletedKeysOf (deletions : List PbDeletionData) : List String :=
  deletions.foldl
    (fun acc d =>
      match d.info with
      | some i =>
        if i.deletionType = 1 then
          match i.media with
          | some med => acc ++ [med.mediaKey]
          | none => acc
        else acc
      | none => acc)
    []

/-- parseFromProto from the source: populate a response from the parsed
protobuf data.  The receiver `r` carries only the raw bytes; its list
fields are nil, so the Go appends build exactly the lists assigned here. -/
def parseFromProto (r : LibraryStateResponse) (data : PbLibraryStateData) :
    LibraryStateResponse :=
  let allItems := allItemsOf data.mediaItems
  let dedupIdx := dedupIdxOf allItems
  let copiesMap := copiesMapOf allItems
  let collectionItems := collectionsOf allItems dedupIdx
  { r with
    stateToken := data.stateToken,
    nextPageToken := data.nextPageToken,
    mediaItems := mediaItemsOut allItems copiesMap,
    albums := data.albums.filterMap
      (fun a => parseAlbumItemFromProto a collectionItems),
    deletedMediaKeys := deletedKeysOf data.deletions }

/-! ## Sync protocol driver (doLibraryRequest and the three entry points)

The transport collaborator (`a.DoRequest` with auth/headers/status-check)
is a parameter producing either the response body bytes or an error, and
`proto.Unmarshal` together with the generated message is a parameter
producing either the `data` field (possibly absent) or a decode error. -/

/-- doLibraryRequest from the source: on a transport error, wrap and return
it; otherwise keep the raw bytes and parse the body only when unmarshalling
succeeded with a data field present (`err == nil && pbResp.Data != nil`) —
an unmarshal failure is silently ignored and the raw-bytes-only response is
returned as a success. -/
def doLibraryRequest (transportResult : Except String (List Nat))
    (unmarshal : List Nat → Except String (Option PbLibraryStateData)) :
    Except String LibraryStateResponse :=
  match transportResult with
  | .error e => .error ("library request failed: " ++ e)
  | .ok bodyBytes =>
    let resp : LibraryStateResponse := { rawBytes := bodyBytes }
    match unmarshal bodyBytes with
    | .ok (some d) => .ok (parseFromProto resp d)
    | .ok none => .ok resp
    | .error _ => .ok resp

/-- GetLibraryState from the source: full or incremental sync. -/
def GetLibraryState (transport : List Nat → Except String (List Nat))
    (unmarshal : List Nat → Except String (Option PbLibraryStateData))
    (stateToken : List Nat) : Except String LibraryStateResponse :=
  doLibraryRequest (transport (buildLibraryStateRequest stateToken []))
    unmarshal

/-- GetLibraryPageInit from the source: paginated fetch, first call. -/
def GetLibraryPageInit (transport : List Nat → Except String (List Nat))
    (unmarshal : List Nat → Except String (Option PbLibraryStateData))
    (pageToken : List Nat) : Except String LibraryStateResponse :=
  doLibraryRequest (transport (buildLibraryPageInitRequest pageToken))
    unmarshal

/-- GetLibraryPage from the source: paginated fetch, subsequent calls. -/
def GetLibraryPage (transport : List Nat → Except String (List Nat))
    (unmarshal : List Nat → Except String (Option PbLibraryStateData))
    (pageToken stateToken : List Nat) : Except String LibraryStateResponse :=
  doLibraryRequest (transport (buildLibraryPageRequest pageToken stateToken))
    unmarshal

/-! ## Claim-side specification definitions

These definitions follow the wording of the specification claims (not the
source); the theorems below compare them with the source-translated
definitions above. -/

/-- Constant head of the request's field-1 body: the three fixed projection
blocks 1.1, 1.2, 1.3 that precede the token fields. -/
def libReqHead : List Nat :=
  appendMessage (appendMessage (appendMessage [] 1 buildField1_1) 2 buildField1_2)
    3 buildField1_3

/-- Constant tail of the request's field-1 body: fields 7 through 26 that
follow the token fields. -/
def libReqTail : List Nat :=
  let b : List Nat := []
  let b := appendIntField b 7 2
  let b := appendMessage b 9 buildField1_9
  let b := appendIntField b 11 1
  let b := appendIntField b 11 2
  let b := appendIntField b 11 6
  let b := appendMessage b 12 buildField1_12
  let b := appendEmptyMessage b 13
  let b := appendMessage b 15 buildField1_15
  let b := appendMessage b 19 buildField1_19
  let b := appendMessage b 21 buildField1_21
  let b := appendMessage b 22 buildField1_22
  let b := appendMessage b 25 buildField1_25
  let b := appendEmptyMessage b 26
  b

/-- An optional token field: the encoded string field when the token is
non-empty, nothing otherwise. -/
def optTokenField (fieldNum : Nat) (s : List Nat) : List Nat :=
  if s ≠ [] then appendStringField [] fieldNum s else []

/-- A sync request whose field-1 body is the constant head, then the given
page-token part, then the given state-token part, then the constant tail,
wrapped together with the constant field-2 metadata block. -/
def libRequestWith (ptPart stPart : List Nat) : List Nat :=
  appendMessage (appendMessage [] 1 (libReqHead ++ ptPart ++ stPart ++ libReqTail))
    2 buildField2

/-- One encoder write, as the claim about the round-trip property ranges
over them: a varint field or a length-delimited (string/bytes/nested
message) field rendered through the append helpers. -/
inductive WriteVal : Type where
  | wvarint (v : Nat)
  | wbytes (bs : List Nat)
deriving Repr, DecidableEq

/-- Render one write through the source's append helpers. -/
def encodeWrite : Nat × WriteVal → List Nat
  | (f, .wvarint v) => appendVarint (appendTag [] f 0) v
  | (f, .wbytes bs) => appendStringField [] f bs

/-- Render a write sequence into one byte buffer. -/
def encodeWrites (ws : List (Nat × WriteVal)) : List Nat :=
  ws.foldr (fun w r => encodeWrite w ++ r) []

/-- Validity bounds for one write: a field number valid on the wire
(positive, below `2 ^ 31`), a varint value within uint64, byte payloads of
actual bytes with a length within uint64. -/
def goodWrite : Nat × WriteVal → Bool
  | (f, .wvarint v) =>
    decide (1 ≤ f) && decide (f < 2 ^ 31) && decide (v < 2 ^ 64)
  | (f, .wbytes bs) =>
    decide (1 ≤ f) && decide (f < 2 ^ 31) && decide (bs.length < 2 ^ 64)
      && bs.all (fun b => decide (b < 256))

/-- The decoded value the decoder actually produces for one write: varints
come back exactly, length-delimited payloads through the speculative
rendering. -/
def renderWriteVal : WriteVal → PVal
  | .wvarint v => .pnum v
  | .wbytes bs => renderBytesPayload bs

/-- The structure the decoder actually recovers from a write sequence. -/
def expectedStructure (ws : List (Nat × WriteVal)) : List (Nat × List PVal) :=
  ws.foldl (fun acc w => upsertList acc w.1 (renderWriteVal w.2)) []

/-- The decoded value the round-trip claim promises for one write: each
field number maps back to the value written under it. -/
def claimWriteVal : WriteVal → PVal
  | .wvarint v => .pnum v
  | .wbytes bs => .pstr bs

/-- The field-number/value structure the round-trip claim promises. -/
def claimStructure (ws : List (Nat × WriteVal)) : List (Nat × List PVal) :=
  ws.foldl (fun acc w => upsertList acc w.1 (claimWriteVal w.2)) []

/-- Fuel-indexed body of the well-formedness predicate below
(`data.length + 1` units of fuel always suffice). -/
def wfWireF : Nat → List Nat → Bool
  | 0, _ => false
  | fuel + 1, data =>
    if data = [] then true
    else
      match consumeTag data with
      | none => false
      | some (_, k, n) =>
        if k = 0 then
          match consumeVarint (data.drop n) with
          | none => false
          | some (_, m) => wfWireF fuel ((data.drop n).drop m)
        else if k = 1 then
          match consumeFixed64 (data.drop n) with
          | none => false
          | some (_, m) => wfWireF fuel ((data.drop n).drop m)
        else if k = 2 then
          match consumeBytes (data.drop n) with
          | none => false
          | some (_, m) => wfWireF fuel ((data.drop n).drop m)
        else if k = 5 then
          match consumeFixed32 (data.drop n) with
          | none => false
          | some (_, m) => wfWireF fuel ((data.drop n).drop m)
        else false

/-- Well-formed wire buffer, following the decode-error claim: the buffer is
consumed as a sequence of tag-plus-payload fields until exhausted, where
every tag parses, every wire kind is one of varint, fixed64,
length-delimited, fixed32 (start-group and every other kind are
malformations), and every payload is complete. -/
def claimWellFormedWire (data : List Nat) : Bool :=
  wfWireF (data.length + 1) data

/-- The deletion records the claim says contribute: deletion info present
with type 1 (single media item deleted) and a media payload, surfacing that
payload's media key. -/
def claimDeletedKey (d : PbDeletionData) : Option String :=
  match d.info with
  | some i =>
    if i.deletionType = 1 then i.media.map (fun med => med.mediaKey) else none
  | none => none

/-- Positions of the canonical records carrying a given dedup key, in input
order (the claim's notion of "first canonical record found with that
key" is the head of this list). -/
def canonicalPositions (allItems : List ParsedItem) (k : String) : List Nat :=
  allItems.enum.filterMap fun ip =>
    if ip.2.isCanonical ∧ ip.2.item.dedupKey = k then some ip.1 else none

/-! ## Concrete fixtures used by counterexamples and witnesses -/

/-- A media wire record fixture: media key, optional dedup key, optional
owning album, and the canonical/non-canonical marker (property 27). -/
def mkPbMedia (key dedup album : String) (nonCanonical : Bool) :
    PbMediaItemData :=
  { mediaKey := key,
    metadata := some
      { fileName := "f.jpg",
        collection := if album = "" then none else some { collectionId := album },
        dedup := if dedup = "" then none else some { dedupKey := dedup },
        properties := if nonCanonical then [{ propertyId := 27 }] else [] } }

/-- A page holding two canonical records and one album copy all sharing one
dedup key. -/
def pageTwoCanonical : PbLibraryStateData :=
  { mediaItems :=
      [some (mkPbMedia "M1" "H" "" false),
       some (mkPbMedia "M2" "H" "" false),
       some (mkPbMedia "M3" "H" "A1" true)],
    albums := [some { albumKey := "A1", metadata := some { title := "T" } }] }

/-- A page holding one canonical record and one album copy sharing a dedup
key (spec scenario A). -/
def pageScenarioA : PbLibraryStateData :=
  { mediaItems :=
      [some (mkPbMedia "M1" "H1" "" false),
       some (mkPbMedia "M2" "H1" "A1" true)],
    albums := [some { albumKey := "A1", metadata := some { title := "T" } }] }

/-- A page holding only an album copy whose dedup key has no canonical match
(spec scenario D). -/
def pageScenarioD : PbLibraryStateData :=
  { mediaItems := [some (mkPbMedia "M2" "H9" "A1" true)],
    albums := [some { albumKey := "A1", metadata := some { title := "T" } }] }

/-! ## Wire codec lemmas -/

/-- The varint encoder is fuel-invariant once the fuel exceeds the value. -/
theorem varintEncAux_congr : ∀ (v fuel fuel' : Nat), v < fuel → v < fuel' →
    varintEncAux fuel v = varintEncAux fuel' v := by
  intro v
  induction v using Nat.strong_induction_on with
  | _ v ih =>
    intro fuel fuel' h h'
    cases fuel with
    | zero => omega
    | succ g =>
      cases fuel' with
      | zero => omega
      | succ g' =>
        simp only [varintEncAux]
        by_cases hv : v < 128
        · simp [hv]
        · rw [if_neg hv, if_neg hv]
          congr 1
          have hlt : v / 128 < v := Nat.div_lt_self (by omega) (by omega)
          exact ih (v / 128) hlt g g' (by omega) (by omega)

/-- Recursion equation of the varint encoder. -/
theorem varintEnc_eq (v : Nat) :
    varintEnc v =
      if v < 128 then [v] else (v % 128 + 128) :: varintEnc (v / 128) := by
  unfold varintEnc
  simp only [varintEncAux]
  by_cases hv : v < 128
  · simp [hv]
  · rw [if_neg hv, if_neg hv]
    congr 1
    have hlt : v / 128 < v := Nat.div_lt_self (by omega) (by omega)
    exact varintEncAux_congr (v / 128) v (v / 128 + 1) (by omega) (by omega)

/-- consumeVarintAux only moves the byte index forward. -/
theorem consumeVarintAux_lt (bs : List Nat) (i acc v n : Nat)
    (h : consumeVarintAux bs i acc = some (v, n)) : i < n := by
  induction bs generalizing i acc v n with
  | nil => simp [consumeVarintAux] at h
  | cons b bs ih =>
    simp only [consumeVarintAux] at h
    split at h
    · split at h
      · simp_all; omega
      · simp_all
    · split at h
      · simp_all; omega
      · exact Nat.lt_of_le_of_lt (Nat.le_succ i) (ih _ _ _ _ h)

/-- A successful varint consumes at least one byte. -/
theorem consumeVarint_one_le (bs : List Nat) (v n : Nat)
    (h : consumeVarint bs = some (v, n)) : 1 ≤ n :=
  consumeVarintAux_lt bs 0 0 v n h

/-- A successful tag consumes at least one byte. -/
theorem consumeTag_one_le (bs : List Nat) (f k n : Nat)
    (h : consumeTag bs = some (f, k, n)) : 1 ≤ n := by
  unfold consumeTag at h
  cases hv : consumeVarint bs with
  | none => simp [hv] at h
  | some p =>
    obtain ⟨v, n'⟩ := p
    rw [hv] at h
    simp only at h
    split at h
    · simp at h
    · simp only [Option.some.injEq] at h
      obtain ⟨-, -, rfl⟩ := h
      exact consumeVarint_one_le bs v n hv

/-- The payload extracted by consumeBytes is no longer than the input. -/
theorem consumeBytes_length_le (bs payload : List Nat) (m : Nat)
    (h : consumeBytes bs = some (payload, m)) : payload.length ≤ bs.length := by
  unfold consumeBytes at h
  cases hv : consumeVarint bs with
  | none => simp [hv] at h
  | some p =>
    obtain ⟨v, n'⟩ := p
    rw [hv] at h
    simp only at h
    split at h
    · simp at h
    · simp only [Option.some.injEq] at h
      obtain ⟨rfl, -⟩ := h
      calc ((bs.drop n').take v).length
          = min v (bs.drop n').length := List.length_take _ _
        _ ≤ (bs.drop n').length := Nat.min_le_right _ _
        _ ≤ bs.length := by simp [List.length_drop]

/-- The decode loop is fuel-invariant once the fuel exceeds the buffer
length. -/
theorem parseLoopF_congr : ∀ (fuel fuel' : Nat) (data : List Nat)
    (acc : List (Nat × List PVal)), data.length < fuel →
    data.length < fuel' → parseLoopF fuel data acc = parseLoopF fuel' data acc := by
  intro fuel
  induction fuel with
  | zero =>
    intro fuel' data acc h h'
    omega
  | succ g ih =>
    intro fuel' data acc h h'
    cases fuel' with
    | zero => omega
    | succ g' =>
      simp only [parseLoopF]
      by_cases hd : data = []
      · rw [if_pos hd, if_pos hd]
      · rw [if_neg hd, if_neg hd]
        have hdl : 0 < data.length := List.length_pos.mpr hd
        cases htag : consumeTag data with
        | none => rfl
        | some t =>
          obtain ⟨f, k, n⟩ := t
          dsimp only
          have hn := consumeTag_one_le data f k n htag
          by_cases hk0 : k = 0
          · rw [if_pos hk0, if_pos hk0]
            cases hv : consumeVarint (data.drop n) with
            | none => rfl
            | some vm =>
              obtain ⟨v, m⟩ := vm
              dsimp only
              apply ih <;> simp only [List.length_drop] <;> omega
          · rw [if_neg hk0, if_neg hk0]
            by_cases hk1 : k = 1
            · rw [if_pos hk1, if_pos hk1]
              cases hv : consumeFixed64 (data.drop n) with
              | none => rfl
              | some vm =>
                obtain ⟨v, m⟩ := vm
                dsimp only
                apply ih <;> simp only [List.length_drop] <;> omega
            · rw [if_neg hk1, if_neg hk1]
              by_cases hk2 : k = 2
              · rw [if_pos hk2, if_pos hk2]
                cases hb : consumeBytes (data.drop n) with
                | none => rfl
                | some pm =>
                  obtain ⟨payload, m⟩ := pm
                  dsimp only
                  have hpl := consumeBytes_length_le (data.drop n) payload m hb
                  simp only [List.length_drop] at hpl
                  rw [ih g' payload [] (by omega) (by omega)]
                  apply ih <;> simp only [List.length_drop] <;> omega
              · rw [if_neg hk2, if_neg hk2]
                by_cases hk3 : k = 3
                · rw [if_pos hk3, if_pos hk3]
                · rw [if_neg hk3, if_neg hk3]
                  by_cases hk5 : k = 5
                  · rw [if_pos hk5, if_pos hk5]
                    cases hv : consumeFixed32 (data.drop n) with
                    | none => rfl
                    | some vm =>
                      obtain ⟨v, m⟩ := vm
                      dsimp only
                      apply ih <;> simp only [List.length_drop] <;> omega
                  · rw [if_neg hk5, if_neg hk5]

/-- Recursion equation of the decode loop, with the speculative rendering
folded into `renderBytesPayload`. -/
theorem parseLoop_eq (data : List Nat) (acc : List (Nat × List PVal)) :
    parseLoop data acc =
      if data = [] then .ok acc
      else
        match consumeTag data with
        | none => .error "invalid tag"
        | some (f, k, n) =>
          if k = 0 then
            match consumeVarint (data.drop n) with
            | none => .error "invalid varint"
            | some (v, m) =>
              parseLoop ((data.drop n).drop m) (upsertList acc f (.pnum v))
          else if k = 1 then
            match consumeFixed64 (data.drop n) with
            | none => .error "invalid fixed64"
            | some (v, m) =>
              parseLoop ((data.drop n).drop m) (upsertList acc f (.pnum v))
          else if k = 2 then
            match consumeBytes (data.drop n) with
            | none => .error "invalid bytes"
            | some (payload, m) =>
              parseLoop ((data.drop n).drop m)
                (upsertList acc f (renderBytesPayload payload))
          else if k = 3 then .error "groups not supported"
          else if k = 5 then
            match consumeFixed32 (data.drop n) with
            | none => .error "invalid fixed32"
            | some (v, m) =>
              parseLoop ((data.drop n).drop m) (upsertList acc f (.pnum v))
          else .error "unknown wire type" := by
  show parseLoopF (data.length + 1) data acc = _
  simp only [parseLoopF]
  by_cases hd : data = []
  · rw [if_pos hd, if_pos hd]
  · rw [if_neg hd, if_neg hd]
    have hdl : 0 < data.length := List.length_pos.mpr hd
    cases htag : consumeTag data with
    | none => rfl
    | some t =>
      obtain ⟨f, k, n⟩ := t
      dsimp only
      have hn := consumeTag_one_le data f k n htag
      by_cases hk0 : k = 0
      · rw [if_pos hk0, if_pos hk0]
        cases hv : consumeVarint (data.drop n) with
        | none => rfl
        | some vm =>
          obtain ⟨v, m⟩ := vm
          dsimp only
          apply parseLoopF_congr <;> simp only [List.length_drop] <;> omega
      · rw [if_neg hk0, if_neg hk0]
        by_cases hk1 : k = 1
        · rw [if_pos hk1, if_pos hk1]
          cases hv : consumeFixed64 (data.drop n) with
          | none => rfl
          | some vm =>
            obtain ⟨v, m⟩ := vm
            dsimp only
            apply parseLoopF_congr <;> simp only [List.length_drop] <;> omega
        · rw [if_neg hk1, if_neg hk1]
          by_cases hk2 : k = 2
          · rw [if_pos hk2, if_pos hk2]
            cases hb : consumeBytes (data.drop n) with
            | none => rfl
            | some pm =>
              obtain ⟨payload, m⟩ := pm
              dsimp only
              have hpl := consumeBytes_length_le (data.drop n) payload m hb
              simp only [List.length_drop] at hpl
              rw [parseLoopF_congr data.length (payload.length + 1) payload []
                (by omega) (by omega)]
              have hrender : (match parseLoopF (payload.length + 1) payload [] with
                  | .ok nested =>
                    if nested.length > 0 then PVal.pmsg nested
                    else if isPrintable payload then PVal.pstr payload
                    else PVal.pstr (bytesMarker payload.length)
                  | .error _ =>
                    if isPrintable payload then PVal.pstr payload
                    else PVal.pstr (bytesMarker payload.length)) =
                  renderBytesPayload payload := rfl
              rw [hrender]
              apply parseLoopF_congr <;> simp only [List.length_drop] <;> omega
          · rw [if_neg hk2, if_neg hk2]
            by_cases hk3 : k = 3
            · rw [if_pos hk3, if_pos hk3]
            · rw [if_neg hk3, if_neg hk3]
              by_cases hk5 : k = 5
              · rw [if_pos hk5, if_pos hk5]
                cases hv : consumeFixed32 (data.drop n) with
                | none => rfl
                | some vm =>
                  obtain ⟨v, m⟩ := vm
                  dsimp only
                  apply parseLoopF_congr <;> simp only [List.length_drop] <;> omega
              · rw [if_neg hk5, if_neg hk5]

/-- The well-formedness scan is fuel-invariant once the fuel exceeds the
buffer length. -/
theorem wfWireF_congr : ∀ (fuel fuel' : Nat) (data : List Nat),
    data.length < fuel → data.length < fuel' →
    wfWireF fuel data = wfWireF fuel' data := by
  intro fuel
  induction fuel with
  | zero =>
    intro fuel' data h h'
    omega
  | succ g ih =>
    intro fuel' data h h'
    cases fuel' with
    | zero => omega
    | succ g' =>
      simp only [wfWireF]
      by_cases hd : data = []
      · rw [if_pos hd, if_pos hd]
      · rw [if_neg hd, if_neg hd]
        have hdl : 0 < data.length := List.length_pos.mpr hd
        cases htag : consumeTag data with
        | none => rfl
        | some t =>
          obtain ⟨f, k, n⟩ := t
          dsimp only
          have hn := consumeTag_one_le data f k n htag
          by_cases hk0 : k = 0
          · rw [if_pos hk0, if_pos hk0]
            cases hv : consumeVarint (data.drop n) with
            | none => rfl
            | some vm =>
              obtain ⟨v, m⟩ := vm
              dsimp only
              apply ih <;> simp only [List.length_drop] <;> omega
          · rw [if_neg hk0, if_neg hk0]
            by_cases hk1 : k = 1
            · rw [if_pos hk1, if_pos hk1]
              cases hv : consumeFixed64 (data.drop n) with
              | none => rfl
              | some vm =>
                obtain ⟨v, m⟩ := vm
                dsimp only
                apply ih <;> simp only [List.length_drop] <;> omega
            · rw [if_neg hk1, if_neg hk1]
              by_cases hk2 : k = 2
              · rw [if_pos hk2, if_pos hk2]
                cases hb : consumeBytes (data.drop n) with
                | none => rfl
                | some pm =>
                  obtain ⟨payload, m⟩ := pm
                  dsimp only
                  apply ih <;> simp only [List.length_drop] <;> omega
              · rw [if_neg hk2, if_neg hk2]
                by_cases hk5 : k = 5
                · rw [if_pos hk5, if_pos hk5]
                  cases hv : consumeFixed32 (data.drop n) with
                  | none => rfl
                  | some vm =>
                    obtain ⟨v, m⟩ := vm
                    dsimp only
                    apply ih <;> simp only [List.length_drop] <;> omega
                · rw [if_neg hk5, if_neg hk5]

/-- Recursion equation of the well-formedness predicate. -/
theorem claimWellFormedWire_eq (data : List Nat) :
    claimWellFormedWire data =
      if data = [] then true
      else
        match consumeTag data with
        | none => false
        | some (_, k, n) =>
          if k = 0 then
            match consumeVarint (data.drop n) with
            | none => false
            | some (_, m) => claimWellFormedWire ((data.drop n).drop m)
          else if k = 1 then
            match consumeFixed64 (data.drop n) with
            | none => false
            | some (_, m) => claimWellFormedWire ((data.drop n).drop m)
          else if k = 2 then
            match consumeBytes (data.drop n) with
            | none => false
            | some (_, m) => claimWellFormedWire ((data.drop n).drop m)
          else if k = 5 then
            match consumeFixed32 (data.drop n) with
            | none => false
            | some (_, m) => claimWellFormedWire ((data.drop n).drop m)
          else false := by
  show wfWireF (data.length + 1) data = _
  simp only [wfWireF]
  by_cases hd : data = []
  · rw [if_pos hd, if_pos hd]
  · rw [if_neg hd, if_neg hd]
    have hdl : 0 < data.length := List.length_pos.mpr hd
    cases htag : consumeTag data with
    | none => rfl
    | some t =>
      obtain ⟨f, k, n⟩ := t
      dsimp only
      have hn := consumeTag_one_le data f k n htag
      by_cases hk0 : k = 0
      · rw [if_pos hk0, if_pos hk0]
        cases hv : consumeVarint (data.drop n) with
        | none => rfl
        | some vm =>
          obtain ⟨v, m⟩ := vm
          dsimp only
          apply wfWireF_congr <;> simp only [List.length_drop] <;> omega
      · rw [if_neg hk0, if_neg hk0]
        by_cases hk1 : k = 1
        · rw [if_pos hk1, if_pos hk1]
          cases hv : consumeFixed64 (data.drop n) with
          | none => rfl
          | some vm =>
            obtain ⟨v, m⟩ := vm
            dsimp only
            apply wfWireF_congr <;> simp only [List.length_drop] <;> omega
        · rw [if_neg hk1, if_neg hk1]
          by_cases hk2 : k = 2
          · rw [if_pos hk2, if_pos hk2]
            cases hb : consumeBytes (data.drop n) with
            | none => rfl
            | some pm =>
              obtain ⟨payload, m⟩ := pm
              dsimp only
              apply wfWireF_congr <;> simp only [List.length_drop] <;> omega
          · rw [if_neg hk2, if_neg hk2]
            by_cases hk5 : k = 5
            · rw [if_pos hk5, if_pos hk5]
              cases hv : consumeFixed32 (data.drop n) with
              | none => rfl
              | some vm =>
                obtain ⟨v, m⟩ := vm
                dsimp only
                apply wfWireF_congr <;> simp only [List.length_drop] <;> omega
            · rw [if_neg hk5, if_neg hk5]

/-- The varint encoder never produces an empty byte sequence. -/
theorem varintEnc_ne_nil (v : Nat) : varintEnc v ≠ [] := by
  rw [varintEnc_eq]
  split_ifs <;> simp

/-- Decoding an encoded varint from any byte index recovers the value
shifted into place and consumes exactly the encoded bytes. -/
theorem consumeVarintAux_enc : ∀ (v : Nat) (rest : List Nat) (i acc : Nat),
    v < 2 ^ (64 - 7 * i) → i ≤ 9 →
    consumeVarintAux (varintEnc v ++ rest) i acc =
      some (acc + v * 2 ^ (7 * i), i + (varintEnc v).length) := by
  intro v
  induction v using Nat.strong_induction_on with
  | _ v ih =>
    intro rest i acc hv hi
    by_cases hi9 : i = 9
    · subst hi9
      have hv2 : v < 2 := by
        have : (64 : Nat) - 7 * 9 = 1 := by norm_num
        rw [this] at hv
        omega
      have henc : varintEnc v = [v] := by
        rw [varintEnc_eq, if_pos (by omega)]
      rw [henc]
      simp only [List.cons_append, List.nil_append, consumeVarintAux,
        if_pos rfl, if_pos hv2]
      have : v * 2 ^ (7 * 9) = v * 2 ^ 63 := by norm_num
      rw [this]
      simp
    · by_cases hv128 : v < 128
      · have henc : varintEnc v = [v] := by
          rw [varintEnc_eq, if_pos hv128]
        rw [henc]
        simp only [List.cons_append, List.nil_append, consumeVarintAux,
          if_neg hi9, if_pos hv128]
        rfl
      · have henc : varintEnc v = (v % 128 + 128) :: varintEnc (v / 128) := by
          rw [varintEnc_eq, if_neg hv128]
        rw [henc]
        simp only [List.cons_append, consumeVarintAux, if_neg hi9,
          if_neg (by omega : ¬ v % 128 + 128 < 128)]
        have hi8 : i ≤ 8 := by
          by_contra hgt
          have hieq : i = 9 := by omega
          exact hi9 hieq
        have hi8' : i < 8 ∨ i = 8 := by omega
        have hpow : 2 ^ 7 * 2 ^ (64 - 7 * (i + 1)) = 2 ^ (64 - 7 * i) := by
          rw [← pow_add]
          congr 1
          omega
        have hv' : v / 128 < 2 ^ (64 - 7 * (i + 1)) := by
          have h128 : (128 : Nat) = 2 ^ 7 := by norm_num
          rw [h128]
          rw [Nat.div_lt_iff_lt_mul (by positivity)]
          calc v < 2 ^ (64 - 7 * i) := hv
            _ = 2 ^ 7 * 2 ^ (64 - 7 * (i + 1)) := hpow.symm
            _ ≤ 2 ^ (64 - 7 * (i + 1)) * 2 ^ 7 := by rw [Nat.mul_comm]
        have hlt : v / 128 < v := Nat.div_lt_self (by omega) (by omega)
        simp only [List.append_eq]
        rw [ih (v / 128) hlt rest (i + 1)
          (acc + (v % 128 + 128 - 128) * 2 ^ (7 * i)) hv' (by omega)]
        have hval : acc + (v % 128 + 128 - 128) * 2 ^ (7 * i) +
            v / 128 * 2 ^ (7 * (i + 1)) = acc + v * 2 ^ (7 * i) := by
          have hr : v % 128 + 128 - 128 = v % 128 := by omega
          rw [hr]
          have h2 : (2 : Nat) ^ (7 * (i + 1)) = 2 ^ (7 * i) * 128 := by
            rw [show 7 * (i + 1) = 7 * i + 7 by ring, pow_add]
            norm_num
          rw [h2]
          conv_rhs => rw [← Nat.mod_add_div v 128]
          ring
        rw [hval]
        have hlen : i + 1 + (varintEnc (v / 128)).length =
            i + (varintEnc v).length := by
          rw [henc]
          simp [List.length_cons]
          omega
        rw [hlen, henc]

/-- Decoding an encoded varint recovers the value and consumes exactly the
encoded bytes. -/
theorem consumeVarint_enc (v : Nat) (rest : List Nat) (hv : v < 2 ^ 64) :
    consumeVarint (varintEnc v ++ rest) =
      some (v, (varintEnc v).length) := by
  unfold consumeVarint
  rw [consumeVarintAux_enc v rest 0 0 (by simpa using hv) (by omega)]
  simp

/-- Decoding an encoded tag recovers the field number and wire kind. -/
theorem consumeTag_enc (f k : Nat) (rest : List Nat) (hf1 : 1 ≤ f)
    (hf2 : f < 2 ^ 31) (hk : k < 8) :
    consumeTag (varintEnc (f * 8 + k) ++ rest) =
      some (f, k, (varintEnc (f * 8 + k)).length) := by
  unfold consumeTag
  have ht : f * 8 + k < 2 ^ 64 := by
    have : f * 8 < 2 ^ 34 := by
      calc f * 8 < 2 ^ 31 * 8 := by omega
        _ ≤ 2 ^ 34 := by norm_num
    have h34 : (2 : Nat) ^ 34 + 8 ≤ 2 ^ 64 := by norm_num
    omega
  rw [consumeVarint_enc (f * 8 + k) rest ht]
  have hdiv : (f * 8 + k) / 8 = f := by omega
  have hmod8 : (f * 8 + k) % 8 = k := by omega
  have hmodw : f % 2 ^ 32 = f := Nat.mod_eq_of_lt (by
    calc f < 2 ^ 31 := hf2
      _ < 2 ^ 32 := by norm_num)
  simp only [hdiv, hmod8, hmodw]
  rw [if_neg]
  push_neg
  constructor
  · omega
  · exact hf2

/-- Decoding an encoded length-delimited payload recovers the payload and
consumes exactly the encoded bytes. -/
theorem consumeBytes_enc (bs rest : List Nat) (hlen : bs.length < 2 ^ 64) :
    consumeBytes (varintEnc bs.length ++ (bs ++ rest)) =
      some (bs, (varintEnc bs.length).length + bs.length) := by
  unfold consumeBytes
  rw [consumeVarint_enc bs.length (bs ++ rest) hlen]
  dsimp only
  rw [List.drop_left]
  rw [if_neg (by simp)]
  rw [List.take_left]

/-- Decoding one rendered write consumes exactly its bytes and records its
rendered value, for any following bytes and accumulated map. -/
theorem parseLoop_encodeWrite (f : Nat) (wv : WriteVal) (rest : List Nat)
    (acc : List (Nat × List PVal)) (hw : goodWrite (f, wv) = true) :
    parseLoop (encodeWrite (f, wv) ++ rest) acc =
      parseLoop rest (upsertList acc f (renderWriteVal wv)) := by
  cases wv with
  | wvarint v =>
    simp only [goodWrite, Bool.and_eq_true, decide_eq_true_eq] at hw
    obtain ⟨⟨hf1, hf2⟩, hv⟩ := hw
    have henc : encodeWrite (f, .wvarint v) =
        varintEnc (f * 8 + 0) ++ varintEnc v := by
      simp [encodeWrite, appendVarint, appendTag, encodeTag]
    rw [henc, List.append_assoc]
    rw [parseLoop_eq]
    rw [if_neg (by
      intro hnil
      exact varintEnc_ne_nil (f * 8 + 0) (List.append_eq_nil.mp hnil).1)]
    rw [consumeTag_enc f 0 (varintEnc v ++ rest) hf1 hf2 (by omega)]
    dsimp only
    rw [if_pos rfl]
    rw [List.drop_left]
    rw [consumeVarint_enc v rest hv]
    dsimp only
    rw [List.drop_left]
    rfl
  | wbytes bs =>
    simp only [goodWrite, Bool.and_eq_true, decide_eq_true_eq] at hw
    obtain ⟨⟨⟨hf1, hf2⟩, hlen⟩, hbytes⟩ := hw
    have henc : encodeWrite (f, .wbytes bs) =
        varintEnc (f * 8 + 2) ++ (varintEnc bs.length ++ bs) := by
      simp [encodeWrite, appendStringField, appendBytes, appendVarint,
        appendTag, encodeTag, List.append_assoc]
    rw [henc, List.append_assoc]
    rw [parseLoop_eq]
    rw [if_neg (by
      intro hnil
      exact varintEnc_ne_nil (f * 8 + 2) (List.append_eq_nil.mp hnil).1)]
    rw [consumeTag_enc f 2 (varintEnc bs.length ++ bs ++ rest) hf1 hf2
      (by omega)]
    dsimp only
    rw [if_neg (by omega : ¬ (2 : Nat) = 0),
      if_neg (by omega : ¬ (2 : Nat) = 1), if_pos rfl]
    rw [List.drop_left]
    rw [List.append_assoc, consumeBytes_enc bs rest hlen]
    dsimp only
    rw [← List.append_assoc, ← List.length_append, List.drop_left]
    rfl

/-- Decoding a rendered write sequence from any starting map accumulates
each write's rendered value in order. -/
theorem parseLoop_encodeWrites : ∀ (ws : List (Nat × WriteVal))
    (acc : List (Nat × List PVal)), (∀ w ∈ ws, goodWrite w = true) →
    parseLoop (encodeWrites ws) acc =
      .ok (ws.foldl (fun acc w => upsertList acc w.1 (renderWriteVal w.2)) acc) := by
  intro ws
  induction ws with
  | nil =>
    intro acc hgood
    rw [show encodeWrites [] = [] from rfl, parseLoop_eq, if_pos rfl]
    rfl
  | cons w ws ih =>
    intro acc hgood
    obtain ⟨f, wv⟩ := w
    have hw : encodeWrites ((f, wv) :: ws) =
        encodeWrite (f, wv) ++ encodeWrites ws := rfl
    rw [hw, parseLoop_encodeWrite f wv (encodeWrites ws) acc
      (hgood (f, wv) (List.mem_cons_self _ _))]
    rw [ih _ (fun w hw => hgood w (List.mem_cons_of_mem _ hw))]
    rfl

/-- Success of the decode loop coincides with the claim-side well-formedness
scan, regardless of the accumulated map: nested speculative failures are
absorbed into the rendered value and never fail the loop, while every
malformation of the top-level scan is fatal. -/
theorem parseLoop_isOk : ∀ (N : Nat) (data : List Nat)
    (acc : List (Nat × List PVal)), data.length < N →
    (parseLoop data acc).isOk = claimWellFormedWire data := by
  intro N
  induction N using Nat.strong_induction_on with
  | _ N ih =>
    intro data acc hlen
    rw [parseLoop_eq, claimWellFormedWire_eq]
    by_cases hd : data = []
    · rw [if_pos hd, if_pos hd]
      rfl
    · rw [if_neg hd, if_neg hd]
      have hdl : 0 < data.length := List.length_pos.mpr hd
      cases htag : consumeTag data with
      | none => rfl
      | some t =>
        obtain ⟨f, k, n⟩ := t
        dsimp only
        have hn := consumeTag_one_le data f k n htag
        by_cases hk0 : k = 0
        · rw [if_pos hk0, if_pos hk0]
          cases hv : consumeVarint (data.drop n) with
          | none => rfl
          | some vm =>
            obtain ⟨v, m⟩ := vm
            dsimp only
            exact ih data.length hlen _ _
              (by simp only [List.length_drop]; omega)
        · rw [if_neg hk0, if_neg hk0]
          by_cases hk1 : k = 1
          · rw [if_pos hk1, if_pos hk1]
            cases hv : consumeFixed64 (data.drop n) with
            | none => rfl
            | some vm =>
              obtain ⟨v, m⟩ := vm
              dsimp only
              exact ih data.length hlen _ _
                (by simp only [List.length_drop]; omega)
          · rw [if_neg hk1, if_neg hk1]
            by_cases hk2 : k = 2
            · rw [if_pos hk2, if_pos hk2]
              cases hb : consumeBytes (data.drop n) with
              | none => rfl
              | some pm =>
                obtain ⟨payload, m⟩ := pm
                dsimp only
                exact ih data.length hlen _ _
                  (by simp only [List.length_drop]; omega)
            · rw [if_neg hk2, if_neg hk2]
              by_cases hk3 : k = 3
              · rw [if_pos hk3]
                rw [if_neg (by omega : ¬ k = 5)]
                rfl
              · rw [if_neg hk3]
                by_cases hk5 : k = 5
                · rw [if_pos hk5, if_pos hk5]
                  cases hv : consumeFixed32 (data.drop n) with
                  | none => rfl
                  | some vm =>
                    obtain ⟨v, m⟩ := vm
                    dsimp only
                    exact ih data.length hlen _ _
                      (by simp only [List.length_drop]; omega)
                · rw [if_neg hk5, if_neg hk5]
                  rfl

/-! ## Shared lemmas about the Go-map model and the reconciliation folds -/

/-- Map lookup after an overwriting assignment. -/
theorem getA_setA {α β : Type} [DecidableEq α] (m : List (α × β)) (k k' : α)
    (v : β) : getA (setA m k v) k' = if k = k' then some v else getA m k' := by
  induction m with
  | nil => simp [setA, getA]
  | cons gw rest ih =>
    obtain ⟨g, w⟩ := gw
    by_cases h1 : g = k
    · subst h1
      simp only [setA, if_pos rfl, getA]
      by_cases h2 : g = k' <;> simp [h2]
    · simp only [setA, if_neg h1, getA, ih]
      by_cases h2 : g = k'
      · by_cases h3 : k = k'
        · exact absurd (h2.trans h3.symm) h1
        · simp [h2, h3]
      · by_cases h3 : k = k' <;> simp [h2, h3]

/-- List-valued map lookup down one entry. -/
theorem getListA_cons {α β : Type} [DecidableEq α] (g : α) (w : List β)
    (rest : List (α × List β)) (k' : α) :
    getListA ((g, w) :: rest) k' = if g = k' then w else getListA rest k' := by
  simp only [getListA, getA]
  split_ifs <;> simp

/-- List-valued map lookup after an appending update. -/
theorem getListA_upsertList {α β : Type} [DecidableEq α]
    (m : List (α × List β)) (k k' : α) (v : β) :
    getListA (upsertList m k v) k' =
      if k = k' then getListA m k' ++ [v] else getListA m k' := by
  induction m with
  | nil =>
    simp only [upsertList, getListA, getA]
    split_ifs <;> simp_all
  | cons gw rest ih =>
    obtain ⟨g, w⟩ := gw
    by_cases h1 : g = k
    · subst h1
      simp only [upsertList, if_pos rfl, getListA_cons]
      by_cases h2 : g = k' <;> simp [h2, getListA_cons]
    · simp only [upsertList, if_neg h1, getListA_cons]
      by_cases h2 : g = k'
      · by_cases h3 : k = k'
        · exact absurd (h2.trans h3.symm) h1
        · simp [h2, h3]
      · by_cases h3 : k = k'
        · subst h3
          simp [h2, ih]
        · simp [h2, h3, ih]

/-- Characterization of the canonical-index fold: looking up a key yields
the position recorded by the last canonical record carrying it. -/
theorem getA_dedupIdx_fold (l : List (Nat × ParsedItem))
    (m : List (String × Nat)) (k : String) :
    getA (l.foldl
        (fun m ip =>
          if ip.2.isCanonical ∧ ip.2.item.dedupKey ≠ "" then
            setA m ip.2.item.dedupKey ip.1
          else m) m) k =
      ((l.filterMap fun ip =>
          if ip.2.isCanonical ∧ ip.2.item.dedupKey = k ∧ k ≠ "" then some ip.1
          else none).getLast?).or (getA m k) := by
  induction l using List.reverseRecOn generalizing m with
  | nil => simp
  | append_singleton l ip ih =>
    rw [List.foldl_append, List.foldl_cons, List.foldl_nil,
      List.filterMap_append]
    by_cases hc : ip.2.isCanonical = true ∧ ip.2.item.dedupKey = k ∧ k ≠ ""
    · obtain ⟨h1, h2, h3⟩ := hc
      have hc' : ip.2.isCanonical = true ∧ ip.2.item.dedupKey ≠ "" :=
        ⟨h1, h2 ▸ h3⟩
      rw [if_pos hc', getA_setA, if_pos h2]
      have hfm : (List.filterMap
          (fun ip =>
            if ip.2.isCanonical = true ∧ ip.2.item.dedupKey = k ∧ k ≠ "" then
              some ip.1
            else none) [ip]) = [ip.1] := by
        simp [h1, h2, h3]
      rw [hfm, List.getLast?_concat]
      rfl
    · have hfm : (List.filterMap
          (fun ip =>
            if ip.2.isCanonical = true ∧ ip.2.item.dedupKey = k ∧ k ≠ "" then
              some ip.1
            else none) [ip]) = [] := by
        simp only [List.filterMap_cons, List.filterMap_nil]
        rw [if_neg hc]
      rw [hfm, List.append_nil]
      by_cases hc2 : ip.2.isCanonical = true ∧ ip.2.item.dedupKey ≠ ""
      · rw [if_pos hc2, getA_setA]
        have hne : ¬ ip.2.item.dedupKey = k := by
          intro he
          exact hc ⟨hc2.1, he, he ▸ hc2.2⟩
        rw [if_neg hne]
        exact ih m
      · rw [if_neg hc2]
        exact ih m

/-- Characterization of the copies fold: the list accumulated under a key
collects exactly the non-canonical records carrying it. -/
theorem getListA_copies_fold (l : List ParsedItem)
    (m : List (String × List MediaItemCopy)) (k : String) :
    getListA (l.foldl
        (fun m p =>
          if ¬ p.isCanonical ∧ p.item.dedupKey ≠ "" then
            upsertList m p.item.dedupKey (copyOfParsed p)
          else m) m) k =
      getListA m k ++
        l.filterMap fun p =>
          if ¬ p.isCanonical ∧ p.item.dedupKey = k ∧ k ≠ "" then
            some (copyOfParsed p)
          else none := by
  induction l using List.reverseRecOn generalizing m with
  | nil => simp
  | append_singleton l p ih =>
    rw [List.foldl_append, List.foldl_cons, List.foldl_nil,
      List.filterMap_append]
    by_cases hc : ¬ p.isCanonical = true ∧ p.item.dedupKey = k ∧ k ≠ ""
    · obtain ⟨h1, h2, h3⟩ := hc
      have hc' : ¬ p.isCanonical = true ∧ p.item.dedupKey ≠ "" :=
        ⟨h1, h2 ▸ h3⟩
      rw [if_pos hc', getListA_upsertList, if_pos h2, ih]
      have hfm : (List.filterMap
          (fun p =>
            if ¬ p.isCanonical = true ∧ p.item.dedupKey = k ∧ k ≠ "" then
              some (copyOfParsed p)
            else none) [p]) = [copyOfParsed p] := by
        simp [h1, h2, h3]
      rw [hfm, List.append_assoc]
    · have hfm : (List.filterMap
          (fun p =>
            if ¬ p.isCanonical = true ∧ p.item.dedupKey = k ∧ k ≠ "" then
              some (copyOfParsed p)
            else none) [p]) = [] := by
        simp only [List.filterMap_cons, List.filterMap_nil]
        rw [if_neg hc]
      rw [hfm, List.append_nil]
      by_cases hc2 : ¬ p.isCanonical = true ∧ p.item.dedupKey ≠ ""
      · rw [if_pos hc2, getListA_upsertList]
        have hne : ¬ p.item.dedupKey = k := by
          intro he
          exact hc ⟨hc2.1, he, he ▸ hc2.2⟩
        rw [if_neg hne]
        exact ih m
      · rw [if_neg hc2]
        exact ih m

/-- Characterization of the album-membership fold: the list accumulated
under an album id collects exactly the non-canonical records (with a dedup
key) referencing that album. -/
theorem getListA_collections_fold (l : List ParsedItem)
    (allItems : List ParsedItem) (dedupIdx : List (String × Nat))
    (m : List (String × List AlbumMediaItem)) (a : String) :
    getListA (l.foldl
        (fun m p =>
          if ¬ p.isCanonical ∧ p.item.dedupKey ≠ "" ∧ p.albumID ≠ "" then
            upsertList m p.albumID (albumEntryOf allItems dedupIdx p)
          else m) m) a =
      getListA m a ++
        l.filterMap fun p =>
          if ¬ p.isCanonical ∧ p.item.dedupKey ≠ "" ∧ p.albumID = a ∧ a ≠ "" then
            some (albumEntryOf allItems dedupIdx p)
          else none := by
  induction l using List.reverseRecOn generalizing m with
  | nil => simp
  | append_singleton l p ih =>
    rw [List.foldl_append, List.foldl_cons, List.foldl_nil,
      List.filterMap_append]
    by_cases hc :
        ¬ p.isCanonical = true ∧ p.item.dedupKey ≠ "" ∧ p.albumID = a ∧ a ≠ ""
    · obtain ⟨h1, h2, h3, h4⟩ := hc
      have hc' : ¬ p.isCanonical = true ∧ p.item.dedupKey ≠ "" ∧ p.albumID ≠ "" :=
        ⟨h1, h2, h3 ▸ h4⟩
      rw [if_pos hc', getListA_upsertList, if_pos h3, ih]
      have hfm : (List.filterMap
          (fun p =>
            if ¬ p.isCanonical = true ∧ p.item.dedupKey ≠ "" ∧ p.albumID = a ∧ a ≠ "" then
              some (albumEntryOf allItems dedupIdx p)
            else none) [p]) = [albumEntryOf allItems dedupIdx p] := by
        simp [h1, h2, h3, h4]
      rw [hfm, List.append_assoc]
    · have hfm : (List.filterMap
          (fun p =>
            if ¬ p.isCanonical = true ∧ p.item.dedupKey ≠ "" ∧ p.albumID = a ∧ a ≠ "" then
              some (albumEntryOf allItems dedupIdx p)
            else none) [p]) = [] := by
        simp only [List.filterMap_cons, List.filterMap_nil]
        rw [if_neg hc]
      rw [hfm, List.append_nil]
      by_cases hc2 : ¬ p.isCanonical = true ∧ p.item.dedupKey ≠ "" ∧ p.albumID ≠ ""
      · rw [if_pos hc2, getListA_upsertList]
        have hne : ¬ p.albumID = a := by
          intro he
          exact hc ⟨hc2.1, hc2.2.1, he, he ▸ hc2.2.2⟩
        rw [if_neg hne]
        exact ih m
      · rw [if_neg hc2]
        exact ih m

/-- Characterization of the third pass: the emitted media items are exactly
the canonical parsed records, each with its copies list and album id
attached. -/
theorem mediaItemsOut_fold (l : List ParsedItem)
    (cm : List (String × List MediaItemCopy)) (acc : List MediaItem) :
    l.foldl
        (fun acc p =>
          if p.isCanonical then
            acc ++ [{ p.item with
                      copies := getListA cm p.item.dedupKey,
                      albumID := p.albumID }]
          else acc) acc =
      acc ++ l.filterMap fun p =>
        if p.isCanonical then
          some { p.item with
                 copies := getListA cm p.item.dedupKey,
                 albumID := p.albumID }
        else none := by
  induction l generalizing acc with
  | nil => simp
  | cons p rest ih =>
    simp only [List.foldl_cons, List.filterMap_cons]
    by_cases hc : p.isCanonical = true
    · rw [if_pos hc, if_pos hc, ih]
      simp [List.append_assoc]
    · rw [if_neg hc, if_neg hc, ih]

/-- Characterization of the deletion pass as a filterMap of the claim-side
extractor. -/
theorem deletedKeysOf_fold (l : List PbDeletionData) (acc : List String) :
    l.foldl
        (fun acc d =>
          match d.info with
          | some i =>
            if i.deletionType = 1 then
              match i.media with
              | some med => acc ++ [med.mediaKey]
              | none => acc
            else acc
          | none => acc) acc =
      acc ++ l.filterMap claimDeletedKey := by
  induction l generalizing acc with
  | nil => simp
  | cons d rest ih =>
    simp only [List.foldl_cons, List.filterMap_cons]
    cases hi : d.info with
    | none => simp [claimDeletedKey, hi, ih]
    | some i =>
      by_cases ht : i.deletionType = 1
      · cases hm : i.media with
        | none => simp [claimDeletedKey, hi, ht, hm, ih]
        | some med =>
          simp [claimDeletedKey, hi, ht, hm, ih, List.append_assoc]
      · simp [claimDeletedKey, hi, ht, ih]

/-- A list's optional last element is a member. -/
theorem mem_of_getLast? {α : Type} {l : List α} {a : α}
    (h : l.getLast? = some a) : a ∈ l := by
  induction l with
  | nil => simp at h
  | cons x xs ih =>
    cases xs with
    | nil =>
      simp only [List.getLast?_singleton, Option.some.injEq] at h
      simp [h]
    | cons y ys =>
      rw [List.getLast?_cons_cons] at h
      exact List.mem_cons_of_mem _ (ih h)

/-- The copies map, characterized per key. -/
theorem getListA_copiesMapOf (allItems : List ParsedItem) (k : String) :
    getListA (copiesMapOf allItems) k =
      allItems.filterMap fun p =>
        if ¬ p.isCanonical = true ∧ p.item.dedupKey = k ∧ k ≠ "" then
          some (copyOfParsed p)
        else none := by
  unfold copiesMapOf
  rw [getListA_copies_fold]
  simp [getListA, getA]

/-- The album-membership map, characterized per album id. -/
theorem getListA_collectionsOf (allItems : List ParsedItem)
    (dedupIdx : List (String × Nat)) (a : String) :
    getListA (collectionsOf allItems dedupIdx) a =
      allItems.filterMap fun p =>
        if ¬ p.isCanonical = true ∧ p.item.dedupKey ≠ "" ∧ p.albumID = a ∧ a ≠ "" then
          some (albumEntryOf allItems dedupIdx p)
        else none := by
  unfold collectionsOf
  rw [getListA_collections_fold]
  simp [getListA, getA]

/-- The third pass, characterized as a filterMap of the canonical records. -/
theorem mediaItemsOut_eq (allItems : List ParsedItem)
    (cm : List (String × List MediaItemCopy)) :
    mediaItemsOut allItems cm =
      allItems.filterMap fun p =>
        if p.isCanonical = true then
          some { p.item with
                 copies := getListA cm p.item.dedupKey,
                 albumID := p.albumID }
        else none := by
  unfold mediaItemsOut
  rw [mediaItemsOut_fold]
  simp

/-- The canonical index lookup returns the last canonical position for a
non-empty key. -/
theorem getA_dedupIdxOf_lastPos (allItems : List ParsedItem) (k : String)
    (hk : k ≠ "") :
    getA (dedupIdxOf allItems) k = (canonicalPositions allItems k).getLast? := by
  unfold dedupIdxOf canonicalPositions
  rw [getA_dedupIdx_fold]
  have h0 : getA ([] : List (String × Nat)) k = none := rfl
  rw [h0]
  have hcongr : (allItems.enum.filterMap fun ip =>
      if ip.2.isCanonical = true ∧ ip.2.item.dedupKey = k ∧ k ≠ "" then
        some ip.1
      else none) =
      allItems.enum.filterMap fun ip =>
        if ip.2.isCanonical = true ∧ ip.2.item.dedupKey = k then some ip.1
        else none := by
    apply List.filterMap_congr
    intro ip _
    by_cases hc : ip.2.isCanonical = true ∧ ip.2.item.dedupKey = k <;>
      simp [hc, hk]
  rw [hcongr]
  cases (allItems.enum.filterMap fun ip =>
      if ip.2.isCanonical = true ∧ ip.2.item.dedupKey = k then some ip.1
      else none).getLast? <;> rfl

/-- A recorded canonical position always holds a canonical record with the
looked-up key. -/
theorem lastPos_valid (allItems : List ParsedItem) (k : String) (i : Nat)
    (h : (canonicalPositions allItems k).getLast? = some i) :
    ∃ p, allItems[i]? = some p ∧ p.isCanonical = true ∧
      p.item.dedupKey = k := by
  have hmem := mem_of_getLast? h
  unfold canonicalPositions at hmem
  rw [List.mem_filterMap] at hmem
  obtain ⟨ip, hip, hval⟩ := hmem
  by_cases hc : ip.2.isCanonical = true ∧ ip.2.item.dedupKey = k
  · rw [if_pos hc, Option.some.injEq] at hval
    subst hval
    exact ⟨ip.2, List.mem_enum_iff_getElem?.mp hip, hc.1, hc.2⟩
  · rw [if_neg hc] at hval
    exact absurd hval (by simp)

/-- Appending one record extends the canonical-position list by its own
position exactly when it is canonical with the given key. -/
theorem canonicalPositions_concat (l : List ParsedItem) (q : ParsedItem)
    (k : String) :
    canonicalPositions (l ++ [q]) k =
      canonicalPositions l k ++
        (if q.isCanonical = true ∧ q.item.dedupKey = k then [l.length]
         else []) := by
  unfold canonicalPositions
  rw [List.enum_append, List.filterMap_append]
  congr 1
  simp only [List.enumFrom, List.filterMap_cons, List.filterMap_nil]
  split_ifs with h
  · simp
  · simp

/-- Index-free description of the copy-resolution function: for a non-empty
key it returns the media key of the last canonical record carrying that
key, or the empty string when the page has none. -/
theorem originalKeyOf_lastCanonical (allItems : List ParsedItem) (k : String)
    (hk : k ≠ "") :
    originalKeyOf allItems (dedupIdxOf allItems) k =
      (match (allItems.filter fun q =>
          q.isCanonical && (q.item.dedupKey == k)).getLast? with
       | some q => q.item.mediaKey
       | none => "") := by
  induction allItems using List.reverseRecOn with
  | nil =>
    unfold originalKeyOf
    rw [getA_dedupIdxOf_lastPos [] k hk]
    rfl
  | append_singleton l q ih =>
    unfold originalKeyOf
    rw [getA_dedupIdxOf_lastPos _ k hk, canonicalPositions_concat,
      List.filter_append]
    by_cases hc : q.isCanonical = true ∧ q.item.dedupKey = k
    · rw [if_pos hc, List.getLast?_concat]
      have hfq : (List.filter
          (fun q => q.isCanonical && (q.item.dedupKey == k)) [q]) = [q] := by
        simp [hc.1, hc.2]
      rw [hfq, List.getLast?_concat]
      have hq : (l ++ [q])[l.length]? = some q := by
        rw [List.getElem?_append_right (Nat.le_refl _)]
        simp
      simp [hq]
    · rw [if_neg hc]
      have hfq : (List.filter
          (fun q => q.isCanonical && (q.item.dedupKey == k)) [q]) = [] := by
        simp only [List.filter_cons, List.filter_nil]
        have hb : (q.isCanonical && (q.item.dedupKey == k)) = false := by
          by_cases hqc : q.isCanonical = true
          · have hne : ¬ q.item.dedupKey = k := fun he => hc ⟨hqc, he⟩
            simp [hqc, hne]
          · simp [Bool.eq_false_iff.mpr hqc]
        simp [hb]
      rw [hfq, List.append_nil, List.append_nil]
      unfold originalKeyOf at ih
      rw [getA_dedupIdxOf_lastPos _ k hk] at ih
      cases hlast : (canonicalPositions l k).getLast? with
      | none => rw [hlast] at ih; exact ih
      | some i =>
        rw [hlast] at ih
        obtain ⟨p, hp, -, -⟩ := lastPos_valid l k i hlast
        have hi : i < l.length := by
          by_contra hge
          rw [List.getElem?_eq_none (Nat.le_of_not_lt hge)] at hp
          exact absurd hp (by simp)
        have hp2 : (l ++ [q])[i]? = some p := by
          rw [List.getElem?_append_left hi]
          exact hp
        simp only [hp2]
        simp only [hp] at ih
        exact ih

/-! ## Claim theorems -/

/-- C1 counterexample: with a transport that delivers a body the protobuf
layer cannot decode, GetLibraryState returns a success carrying only the
raw bytes — an empty sync response — instead of an error. -/
theorem C1_counterexample :
    GetLibraryState (fun _ => .ok [255])
        (fun _ => .error "cannot parse invalid wire-format data") [] =
      .ok { rawBytes := [255] } :=
  rfl

/-- C1 amended: a transport error is wrapped and returned, but the three
sync entry points never fail on a malformed response body: whenever the
transport succeeds the call succeeds, and when unmarshalling does not
produce a data field (decode error or absent data) the caller receives a
success holding only the raw bytes, with every parsed field empty. -/
theorem C1_decode_errors_swallowed :
    (∀ (e : String) (um : List Nat → Except String (Option PbLibraryStateData)),
       doLibraryRequest (.error e) um =
         .error ("library request failed: " ++ e)) ∧
    (∀ (body : List Nat) (um : List Nat → Except String (Option PbLibraryStateData)),
       (doLibraryRequest (.ok body) um).isOk = true) ∧
    (∀ (body : List Nat) (um : List Nat → Except String (Option PbLibraryStateData)),
       (∀ d, um body ≠ .ok (some d)) →
         doLibraryRequest (.ok body) um = .ok { rawBytes := body }) ∧
    (∀ transport um st, GetLibraryState transport um st =
       doLibraryRequest (transport (buildLibraryStateRequest st [])) um) ∧
    (∀ transport um pt, GetLibraryPageInit transport um pt =
       doLibraryRequest (transport (buildLibraryPageInitRequest pt)) um) ∧
    (∀ transport um pt st, GetLibraryPage transport um pt st =
       doLibraryRequest (transport (buildLibraryPageRequest pt st)) um) := by
  refine ⟨fun e um => rfl, ?_, ?_, fun t um st => rfl, fun t um pt => rfl,
    fun t um pt st => rfl⟩
  · intro body um
    cases h : um body with
    | ok o => cases o <;> simp [doLibraryRequest, h, Except.isOk, Except.toBool]
    | error e => simp [doLibraryRequest, h, Except.isOk, Except.toBool]
  · intro body um hum
    cases h : um body with
    | ok o =>
      cases o with
      | none => simp [doLibraryRequest, h]
      | some d => exact absurd h (hum d)
    | error e => simp [doLibraryRequest, h]

/-- C1 witness: the swallowing clause instantiated on a concrete failing
unmarshal. -/
theorem C1_decode_errors_swallowed_witness :
    (∀ d, (fun (_ : List Nat) =>
        (.error "bad wire" : Except String (Option PbLibraryStateData))) [255] ≠
      .ok (some d)) ∧
    doLibraryRequest (.ok [255])
        (fun _ => (.error "bad wire" : Except String (Option PbLibraryStateData))) =
      .ok { rawBytes := [255] } :=
  ⟨fun d h => Except.noConfusion h,
    C1_decode_errors_swallowed.2.2.1 [255]
      (fun _ => (.error "bad wire" : Except String (Option PbLibraryStateData)))
      (fun d h => Except.noConfusion h)⟩

set_option maxRecDepth 8000 in
/-- C4 counterexample: with an empty page token the paginated-init request
is byte-identical to the tokenless full-sync request — it contains no
page-token field at all, contradicting the claim for all token strings. -/
theorem C4_counterexample :
    buildLibraryPageInitRequest [] = buildLibraryStateRequest [] [] ∧
    buildLibraryPageInitRequest [] ≠
      libRequestWith (appendStringField [] 4 []) [] :=
  ⟨rfl, by decide⟩

/-- C4 amended: every request is the constant head blocks, an optional
page-token field, an optional state-token field and the constant tail
blocks, wrapped with the constant metadata block — so the three builders
differ only in the two token fields, each of which is present exactly when
the corresponding supplied token is non-empty. -/
theorem C4_request_decomposition :
    (∀ st pt, buildLibraryStateRequest st pt =
       libRequestWith (optTokenField 4 pt) (optTokenField 6 st)) ∧
    (∀ pt, buildLibraryPageInitRequest pt =
       libRequestWith (optTokenField 4 pt) []) ∧
    (∀ pt st, buildLibraryPageRequest pt st =
       libRequestWith (optTokenField 4 pt) (optTokenField 6 st)) := by
  have hmain : ∀ st pt, buildLibraryStateRequest st pt =
      libRequestWith (optTokenField 4 pt) (optTokenField 6 st) := by
    intro st pt
    unfold buildLibraryStateRequest libRequestWith libReqHead libReqTail
      optTokenField
    by_cases hpt : pt = [] <;> by_cases hst : st = [] <;>
      simp [hpt, hst, appendMessage, appendBytes, appendIntField,
        appendStringField, appendEmptyMessage, appendTag, appendVarint,
        List.append_assoc]
  refine ⟨hmain, ?_, ?_⟩
  · intro pt
    have h := hmain [] pt
    unfold buildLibraryPageInitRequest
    rw [h]
    rfl
  · intro pt st
    exact hmain st pt

/-- C2 counterexample: on a page whose records with dedup key H are two
canonical items (positions 0 and 1) followed by an album copy, the index
maps H to position 1, not to the position 0 of the first canonical record,
and the album membership entry resolves its original media key to the
second canonical record M2. -/
theorem C2_counterexample :
    canonicalPositions (allItemsOf pageTwoCanonical.mediaItems) "H" = [0, 1] ∧
    getA (dedupIdxOf (allItemsOf pageTwoCanonical.mediaItems)) "H" = some 1 ∧
    getListA
        (collectionsOf (allItemsOf pageTwoCanonical.mediaItems)
          (dedupIdxOf (allItemsOf pageTwoCanonical.mediaItems))) "A1" =
      [{ mediaKey := "M3", originalMediaKey := "M2", fileName := "f.jpg",
         dedupKey := "H" }] :=
  ⟨rfl, rfl, rfl⟩

/-- C2 amended: during the classify pass, the index maps every non-empty
dedup key to the position of the last canonical record found with that key
in the input order (the service in practice emits exactly one, in which
case first and last coincide); that position always holds a canonical
record with that key, and copies and album membership entries resolve their
original media key to that record's media key. -/
theorem C2_dedup_index_last :
    (∀ (allItems : List ParsedItem) (k : String), k ≠ "" →
       getA (dedupIdxOf allItems) k =
         (canonicalPositions allItems k).getLast?) ∧
    (∀ (allItems : List ParsedItem) (k : String) (i : Nat),
       (canonicalPositions allItems k).getLast? = some i →
         ∃ p, allItems[i]? = some p ∧ p.isCanonical = true ∧
           p.item.dedupKey = k) ∧
    (∀ (allItems : List ParsedItem) (k : String) (i : Nat) (p : ParsedItem),
       k ≠ "" → (canonicalPositions allItems k).getLast? = some i →
       allItems[i]? = some p →
         originalKeyOf allItems (dedupIdxOf allItems) k = p.item.mediaKey) := by
  refine ⟨getA_dedupIdxOf_lastPos, lastPos_valid, ?_⟩
  intro allItems k i p hk h1 h2
  unfold originalKeyOf
  rw [getA_dedupIdxOf_lastPos allItems k hk, h1]
  simp [h2]

/-- C2 witness: the amended characterization instantiated on the concrete
two-canonical page at its non-empty dedup key H. -/
theorem C2_dedup_index_last_witness :
    ("H" : String) ≠ "" ∧
    getA (dedupIdxOf (allItemsOf pageTwoCanonical.mediaItems)) "H" =
      (canonicalPositions (allItemsOf pageTwoCanonical.mediaItems) "H").getLast? :=
  ⟨by decide, C2_dedup_index_last.1 (allItemsOf pageTwoCanonical.mediaItems)
    "H" (by decide)⟩

/-- C3 counterexample: on the two-canonical page the dedup key H appears on
three parsed records, yet the reconciliation output contains two top-level
media items with that key (one per canonical record), not exactly one. -/
theorem C3_counterexample :
    (allItemsOf pageTwoCanonical.mediaItems).countP
        (fun p => p.item.dedupKey == "H") = 3 ∧
    (parseFromProto {} pageTwoCanonical).mediaItems.countP
        (fun m => m.dedupKey == "H") = 2 :=
  ⟨rfl, rfl⟩

/-- C3 amended: the top-level media items are exactly the canonical parsed
records — the number of emitted items with a given dedup key equals the
number of canonical records with that key (so exactly one item per
duplicated key holds precisely when exactly one of its records is
canonical, as the service emits in practice), and every emitted item's
copies list collects exactly the non-canonical records sharing its key, so
non-canonical records appear only inside copies lists, never top-level. -/
theorem C3_canonical_uniqueness :
    (∀ (allItems : List ParsedItem) (cm : List (String × List MediaItemCopy))
       (k : String),
       (mediaItemsOut allItems cm).countP (fun m => m.dedupKey == k) =
         allItems.countP (fun p => p.isCanonical && (p.item.dedupKey == k))) ∧
    (∀ (allItems : List ParsedItem) (m : MediaItem),
       m ∈ mediaItemsOut allItems (copiesMapOf allItems) →
         m.copies = allItems.filterMap fun p =>
           if ¬ p.isCanonical = true ∧ p.item.dedupKey = m.dedupKey ∧
               m.dedupKey ≠ "" then
             some (copyOfParsed p)
           else none) := by
  constructor
  · intro allItems cm k
    rw [mediaItemsOut_eq]
    induction allItems with
    | nil => simp
    | cons p rest ih =>
      simp only [List.filterMap_cons, List.countP_cons]
      by_cases hc : p.isCanonical = true
      · rw [if_pos hc]
        simp [List.countP_cons, hc, ih]
      · rw [if_neg hc]
        simp [hc, ih]
  · intro allItems m hm
    rw [mediaItemsOut_eq, List.mem_filterMap] at hm
    obtain ⟨p, hp, hval⟩ := hm
    by_cases hc : p.isCanonical = true
    · rw [if_pos hc, Option.some.injEq] at hval
      subst hval
      simp only
      rw [getListA_copiesMapOf]
    · simp [hc] at hval

/-- C3 witness: the single canonical item of scenario A is in the output,
and its copies list is exactly the non-canonical sharer of its dedup key. -/
theorem C3_canonical_uniqueness_witness :
    ({ mediaKey := "M1", fileName := "f.jpg", dedupKey := "H1",
       copies := [{ mediaKey := "M2", albumID := "A1" }] } : MediaItem) ∈
        mediaItemsOut (allItemsOf pageScenarioA.mediaItems)
          (copiesMapOf (allItemsOf pageScenarioA.mediaItems)) ∧
    ({ mediaKey := "M1", fileName := "f.jpg", dedupKey := "H1",
       copies := [{ mediaKey := "M2", albumID := "A1" }] } : MediaItem).copies =
      (allItemsOf pageScenarioA.mediaItems).filterMap (fun p =>
        if ¬ p.isCanonical = true ∧
            p.item.dedupKey =
              ({ mediaKey := "M1", fileName := "f.jpg", dedupKey := "H1",
                 copies := [{ mediaKey := "M2", albumID := "A1" }] } :
                MediaItem).dedupKey ∧
            ({ mediaKey := "M1", fileName := "f.jpg", dedupKey := "H1",
               copies := [{ mediaKey := "M2", albumID := "A1" }] } :
              MediaItem).dedupKey ≠ "" then
          some (copyOfParsed p)
        else none) :=
  ⟨by decide, C3_canonical_uniqueness.2 (allItemsOf pageScenarioA.mediaItems)
    { mediaKey := "M1", fileName := "f.jpg", dedupKey := "H1",
      copies := [{ mediaKey := "M2", albumID := "A1" }] } (by decide)⟩

/-- C8: for every list of deletion wire records, a record contributes its
media key to the deleted-media-keys output if and only if its deletion info
is present with deletion type 1 and a media payload; records of every other
type contribute no entry and cause no error — the output is exactly the
in-order extraction of the claim-side `claimDeletedKey`. -/
theorem C8_deletion_extraction (ds : List PbDeletionData) :
    deletedKeysOf ds = ds.filterMap claimDeletedKey := by
  unfold deletedKeysOf
  rw [deletedKeysOf_fold]
  simp

/-- C5 counterexample: writing the two-byte string 08 01 under field 1
through the encoder helpers and generically decoding does not recover that
string — the speculative decoder renders the payload as a nested message
with field 1 holding varint 1, so the recovered structure differs from the
written field-number/value structure. -/
theorem C5_counterexample :
    parseProtobufMessage (encodeWrites [(1, .wbytes [8, 1])]) =
      .ok [(1, [.pmsg [(1, [.pnum 1])]])] ∧
    claimStructure [(1, .wbytes [8, 1])] = [(1, [.pstr [8, 1]])] ∧
    ([(1, [PVal.pmsg [(1, [PVal.pnum 1])]])] : List (Nat × List PVal)) ≠
      [(1, [PVal.pstr [8, 1]])] :=
  ⟨rfl, rfl, by simp⟩

/-- C5 amended: generically decoding a buffer rendered through the encoder
helpers recovers the field numbers, the per-field-number order and
repetition (as ordered lists) and every varint value exactly, while each
length-delimited payload is recovered through the decoder's speculative
rendering: as a nested structure when the payload itself decodes as a
non-empty message, as the written bytes when printable, and as a length
marker otherwise. -/
theorem C5_roundtrip_up_to_rendering (ws : List (Nat × WriteVal))
    (hgood : ∀ w ∈ ws, goodWrite w = true) :
    parseProtobufMessage (encodeWrites ws) = .ok (expectedStructure ws) :=
  parseLoop_encodeWrites ws [] hgood

/-- C5 witness: a concrete write sequence with a repeated varint field and a
printable undecodable string payload round-trips to its expected
structure. -/
theorem C5_roundtrip_up_to_rendering_witness :
    (∀ w ∈ ([(1, WriteVal.wvarint 5),
             (2, WriteVal.wbytes [104, 101, 108, 108, 111]),
             (1, WriteVal.wvarint 7)] : List (Nat × WriteVal)),
       goodWrite w = true) ∧
    parseProtobufMessage (encodeWrites
        [(1, WriteVal.wvarint 5),
         (2, WriteVal.wbytes [104, 101, 108, 108, 111]),
         (1, WriteVal.wvarint 7)]) =
      .ok (expectedStructure
        [(1, WriteVal.wvarint 5),
         (2, WriteVal.wbytes [104, 101, 108, 108, 111]),
         (1, WriteVal.wvarint 7)]) :=
  ⟨by decide,
    C5_roundtrip_up_to_rendering
      [(1, WriteVal.wvarint 5),
       (2, WriteVal.wbytes [104, 101, 108, 108, 111]),
       (1, WriteVal.wvarint 7)] (by decide)⟩

/-- C6: the generic decoder returns a record tree exactly on the buffers the
claim calls well formed — consumed as a whole sequence of tag-plus-payload
fields with only the varint, fixed64, length-delimited and fixed32 wire
kinds and no truncation — and returns an error (never a partial result) on
every buffer whose top-level scan hits a malformed tag, a truncated varint
or payload, a start-group kind or any other unsupported kind. -/
theorem C6_decode_error_characterization (data : List Nat) :
    (parseProtobufMessage data).isOk = claimWellFormedWire data :=
  parseLoop_isOk (data.length + 1) data [] (by omega)

/-- C7: a non-canonical record with an album id and a dedup key that has no
matching canonical record in the page still contributes an album membership
entry with an empty original media key, rather than being discarded. -/
theorem C7_unresolved_reference (allItems : List ParsedItem) (p : ParsedItem)
    (hmem : p ∈ allItems) (hnc : p.isCanonical = false)
    (hk : p.item.dedupKey ≠ "") (ha : p.albumID ≠ "")
    (hnone : getA (dedupIdxOf allItems) p.item.dedupKey = none) :
    ({ mediaKey := p.item.mediaKey, originalMediaKey := "",
       fileName := p.item.fileName, dedupKey := p.item.dedupKey } :
      AlbumMediaItem) ∈
      getListA (collectionsOf allItems (dedupIdxOf allItems)) p.albumID := by
  rw [getListA_collectionsOf, List.mem_filterMap]
  refine ⟨p, hmem, ?_⟩
  rw [if_pos ⟨by simp [hnc], hk, rfl, ha⟩]
  unfold albumEntryOf originalKeyOf
  rw [hnone]

/-- C7 witness: the scenario-D page (an album copy with no canonical match)
still yields the membership entry with empty original media key. -/
theorem C7_unresolved_reference_witness :
    (⟨{ mediaKey := "M2", fileName := "f.jpg", dedupKey := "H9" }, false,
        "A1"⟩ : ParsedItem) ∈ allItemsOf pageScenarioD.mediaItems ∧
    ({ mediaKey := "M2", originalMediaKey := "", fileName := "f.jpg",
       dedupKey := "H9" } : AlbumMediaItem) ∈
      getListA
        (collectionsOf (allItemsOf pageScenarioD.mediaItems)
          (dedupIdxOf (allItemsOf pageScenarioD.mediaItems))) "A1" :=
  ⟨by decide,
    C7_unresolved_reference (allItemsOf pageScenarioD.mediaItems)
      ⟨{ mediaKey := "M2", fileName := "f.jpg", dedupKey := "H9" }, false, "A1"⟩
      (by decide) (by decide) (by decide) (by decide) (by decide)⟩

/-- C10: a non-canonical parsed record with an empty dedup key is dropped
entirely — removing it from the page changes neither the emitted media
items, nor any copies list, nor any album's membership list, even when the
record carries a non-empty album id. -/
theorem C10_empty_dedup_dropped (pre post : List ParsedItem) (p : ParsedItem)
    (hnc : p.isCanonical = false) (hkey : p.item.dedupKey = "") :
    (∀ k, getListA (copiesMapOf (pre ++ p :: post)) k =
      getListA (copiesMapOf (pre ++ post)) k) ∧
    (∀ a, getListA
        (collectionsOf (pre ++ p :: post) (dedupIdxOf (pre ++ p :: post))) a =
      getListA (collectionsOf (pre ++ post) (dedupIdxOf (pre ++ post))) a) ∧
    mediaItemsOut (pre ++ p :: post) (copiesMapOf (pre ++ p :: post)) =
      mediaItemsOut (pre ++ post) (copiesMapOf (pre ++ post)) := by
  have hpcopy : ∀ (k : String),
      (if ¬ p.isCanonical = true ∧ p.item.dedupKey = k ∧ k ≠ "" then
        some (copyOfParsed p) else none) = none := by
    intro k
    rw [if_neg]
    rintro ⟨-, h2, h3⟩
    exact h3 (h2 ▸ hkey)
  have hcop : ∀ k, getListA (copiesMapOf (pre ++ p :: post)) k =
      getListA (copiesMapOf (pre ++ post)) k := by
    intro k
    rw [getListA_copiesMapOf, getListA_copiesMapOf]
    rw [List.filterMap_append, List.filterMap_append, List.filterMap_cons]
    rw [hpcopy k]
  have hentry : ∀ (q : ParsedItem), q.item.dedupKey ≠ "" →
      albumEntryOf (pre ++ p :: post) (dedupIdxOf (pre ++ p :: post)) q =
        albumEntryOf (pre ++ post) (dedupIdxOf (pre ++ post)) q := by
    intro q hq
    unfold albumEntryOf
    have hfilter : (pre ++ p :: post).filter
        (fun r => r.isCanonical && (r.item.dedupKey == q.item.dedupKey)) =
        (pre ++ post).filter
          (fun r => r.isCanonical && (r.item.dedupKey == q.item.dedupKey)) := by
      rw [List.filter_append, List.filter_append, List.filter_cons]
      have hb : (p.isCanonical && (p.item.dedupKey == q.item.dedupKey)) = false := by
        simp [hnc]
      simp [hb]
    rw [originalKeyOf_lastCanonical _ _ hq, originalKeyOf_lastCanonical _ _ hq,
      hfilter]
  have hcoll : ∀ a, getListA
      (collectionsOf (pre ++ p :: post) (dedupIdxOf (pre ++ p :: post))) a =
      getListA (collectionsOf (pre ++ post) (dedupIdxOf (pre ++ post))) a := by
    intro a
    rw [getListA_collectionsOf, getListA_collectionsOf]
    rw [List.filterMap_append, List.filterMap_append, List.filterMap_cons]
    have hpent : (if ¬ p.isCanonical = true ∧ p.item.dedupKey ≠ "" ∧
        p.albumID = a ∧ a ≠ "" then
        some (albumEntryOf (pre ++ p :: post) (dedupIdxOf (pre ++ p :: post)) p)
        else none) = none := by
      rw [if_neg]
      rintro ⟨-, h2, -, -⟩
      exact h2 hkey
    rw [hpent]
    have hcongr : ∀ (l : List ParsedItem), l.filterMap (fun q =>
        if ¬ q.isCanonical = true ∧ q.item.dedupKey ≠ "" ∧
            q.albumID = a ∧ a ≠ "" then
          some (albumEntryOf (pre ++ p :: post) (dedupIdxOf (pre ++ p :: post)) q)
        else none) =
        l.filterMap (fun q =>
          if ¬ q.isCanonical = true ∧ q.item.dedupKey ≠ "" ∧
              q.albumID = a ∧ a ≠ "" then
            some (albumEntryOf (pre ++ post) (dedupIdxOf (pre ++ post)) q)
          else none) := by
      intro l
      apply List.filterMap_congr
      intro q _
      by_cases hq : ¬ q.isCanonical = true ∧ q.item.dedupKey ≠ "" ∧
          q.albumID = a ∧ a ≠ ""
      · rw [if_pos hq, if_pos hq, hentry q hq.2.1]
      · rw [if_neg hq, if_neg hq]
    rw [hcongr pre, hcongr post]
  refine ⟨hcop, hcoll, ?_⟩
  rw [mediaItemsOut_eq, mediaItemsOut_eq]
  rw [List.filterMap_append, List.filterMap_append, List.filterMap_cons]
  have hpitem : (if p.isCanonical = true then
      some { p.item with
             copies := getListA (copiesMapOf (pre ++ p :: post)) p.item.dedupKey,
             albumID := p.albumID }
      else none) = none := by
    rw [if_neg]
    simp [hnc]
  rw [hpitem]
  have hcongr2 : ∀ (l : List ParsedItem), l.filterMap (fun q =>
      if q.isCanonical = true then
        some { q.item with
               copies := getListA (copiesMapOf (pre ++ p :: post)) q.item.dedupKey,
               albumID := q.albumID }
      else none) =
      l.filterMap (fun q =>
        if q.isCanonical = true then
          some { q.item with
                 copies := getListA (copiesMapOf (pre ++ post)) q.item.dedupKey,
                 albumID := q.albumID }
        else none) := by
    intro l
    apply List.filterMap_congr
    intro q _
    by_cases hq : q.isCanonical = true
    · rw [if_pos hq, if_pos hq, hcop q.item.dedupKey]
    · rw [if_neg hq, if_neg hq]
  rw [hcongr2 pre, hcongr2 post]

/-- C10 witness: dropping a concrete empty-dedup-key album copy from between
two records leaves the copies map (at the shared key), the membership map
(at its album) and the emitted media items unchanged. -/
theorem C10_empty_dedup_dropped_witness :
    getListA
        (copiesMapOf
          ([⟨{ mediaKey := "M1", dedupKey := "H" }, true, ""⟩] ++
            ⟨{ mediaKey := "MX" }, false, "A1"⟩ ::
              [⟨{ mediaKey := "M2", dedupKey := "H" }, false, "A1"⟩])) "H" =
      getListA
        (copiesMapOf
          ([⟨{ mediaKey := "M1", dedupKey := "H" }, true, ""⟩] ++
            [⟨{ mediaKey := "M2", dedupKey := "H" }, false, "A1"⟩])) "H" :=
  (C10_empty_dedup_dropped
    [⟨{ mediaKey := "M1", dedupKey := "H" }, true, ""⟩]
    [⟨{ mediaKey := "M2", dedupKey := "H" }, false, "A1"⟩]
    ⟨{ mediaKey := "MX" }, false, "A1"⟩ (by decide) (by decide)).1 "H"

/-- C9: every emitted album has item_count equal to the length of its
membership list (with 0 and the empty list for albums without accumulated
membership), and the wire item_count field is never consulted: replacing it
by an arbitrary value leaves the parsed album unchanged. -/
theorem C9_album_count_invariant :
    (∀ (pbAlbum : Option PbAlbumData)
       (cI : List (String × List AlbumMediaItem)) (a : AlbumItem),
       parseAlbumItemFromProto pbAlbum cI = some a →
         a.itemCount = a.mediaItems.length ∧
         (getA cI a.albumKey = none →
           a.itemCount = 0 ∧ a.mediaItems = [])) ∧
    (∀ (d : PbAlbumData) (md : PbAlbumMetadata) (n : Nat)
       (cI : List (String × List AlbumMediaItem)),
       parseAlbumItemFromProto
           (some { d with metadata := some { md with itemCount := n } }) cI =
         parseAlbumItemFromProto (some { d with metadata := some md }) cI) := by
  constructor
  · intro pbAlbum cI a h
    match pbAlbum with
    | none => simp [parseAlbumItemFromProto] at h
    | some alb =>
      simp only [parseAlbumItemFromProto] at h
      by_cases hk : alb.albumKey = ""
      · simp [hk] at h
      · rw [if_neg hk] at h
        simp only [Option.some.injEq] at h
        subst h
        cases hmd : alb.metadata with
        | none =>
          simp only [hmd]
          cases hg : getA cI alb.albumKey <;> simp [hg]
        | some m =>
          simp only [hmd]
          cases hcov : m.coverItem <;>
            cases hg : getA cI alb.albumKey <;> simp [hcov, hg]
  · intro d md n cI
    simp only [parseAlbumItemFromProto]

/-- C9 witness: a concrete album with no accumulated membership parses with
item_count 0 equal to the length of its empty membership list. -/
theorem C9_album_count_invariant_witness :
    parseAlbumItemFromProto (some { albumKey := "A1" }) [] =
        some { albumKey := "A1" } ∧
      ({ albumKey := "A1" } : AlbumItem).itemCount =
        ({ albumKey := "A1" } : AlbumItem).mediaItems.length :=
  ⟨rfl, (C9_album_count_invariant.1 (some { albumKey := "A1" }) []
    { albumKey := "A1" } rfl).1⟩

end GPhotos
